import Mathlib

/-!
Verification development for the invoice-parsing core of
`src/Invoice_Runner_v3.2.py` (Smart Invoice Runner v3.2).

The Python source works by regular-expression matching over the extracted
invoice text.  We shallowly embed the relevant functions over `List Char`:
a small backtracking regular-expression engine (`RE`, `mrun`) reproduces
Python `re` semantics (leftmost search, ordered alternation, greedy and
lazy repetition, capture groups, the `^`/`$` multiline anchors and `\b`)
for exactly the pattern shapes the source uses; every pattern of the
source is then transcribed as an `RE` term, and each Python function
(normalize_text, soft_clean, amount_to_float, map_primary_from_custref,
FedExParser.parse, LightningParser.parse, generic_invoice_parser, the
vendor detectors and the dispatcher core) as a Lean definition over these.

Texts in scope are the ASCII invoice texts the program consumes, so the
ASCII readings of `\s`, `\d`, `\w`, `str.lower` and `str.strip` coincide
with Python's.
-/

namespace SIR

/-! ## Character classes (Python `re`, ASCII reading) -/

/-- Python `\s` over ASCII: space, tab, newline, carriage return,
vertical tab, form feed. -/
def isSpaceC (c : Char) : Bool :=
  c == ' ' || c == '\t' || c == '\n' || c == '\r' || c == '\x0b' || c == '\x0c'

/-- Python `\d` over ASCII. -/
def isDigitC (c : Char) : Bool := c.isDigit

/-- Python `\w` over ASCII: letters, digits, underscore. -/
def isWordC (c : Char) : Bool := c.isAlphanum || c == '_'

/-- `[A-Za-z]`. -/
def isAlphaC (c : Char) : Bool := c.isAlpha

/-- `.` without `re.DOTALL`: any character but newline. -/
def anyNL (c : Char) : Bool := c != '\n'

/-- `.` with `re.DOTALL`: any character. -/
def anyC (_ : Char) : Bool := true

/-- A case-sensitive literal character. -/
def litC (c : Char) : Char → Bool := fun x => x == c

/-- A literal character under `re.IGNORECASE`. -/
def ciC (c : Char) : Char → Bool := fun x => x.toLower == c.toLower

/-- `[^\s]`. -/
def notSpaceC (c : Char) : Bool := !isSpaceC c

/-- `[\d,]`. -/
def digCommaC (c : Char) : Bool := c.isDigit || c == ','

/-- `[\d,.]`. -/
def digCommaDotC (c : Char) : Bool := c.isDigit || c == ',' || c == '.'

/-- `[:\s]`. -/
def colonWsC (c : Char) : Bool := c == ':' || isSpaceC c

/-- `[:\s\$]`. -/
def colonWsDollarC (c : Char) : Bool := c == ':' || c == '$' || isSpaceC c

/-- `[A-Z0-9\-]` under `re.IGNORECASE`. -/
def alnumDashC (c : Char) : Bool := c.isAlpha || c.isDigit || c == '-'

/-- `[\t ]`. -/
def tabSpaceC (c : Char) : Bool := c == '\t' || c == ' '

/-- `[–\-]` (en dash or hyphen). -/
def dashEnC (c : Char) : Bool := c == '\u2013' || c == '-'

/-- `[-–—]` (hyphen, en dash, em dash). -/
def dashAllC (c : Char) : Bool := c == '-' || c == '\u2013' || c == '\u2014'

/-! ## A small regular-expression engine

Only the constructs the source's patterns use.  Unbounded repetition is
restricted to single-character classes (`\s*`, `.+?`, `\d{5,}` …), which is
what every pattern of the source does, so a fuel bounded by
pattern size × text length suffices for the backtracking matcher. -/

/-- Regular expressions: `eps` the empty pattern, `cls` one character of a
class, `seq`/`alt` concatenation and ordered alternation, `opt` `?` over an
arbitrary subpattern, `rep lo hi greedy f` the class repetition
`f{lo,hi}` (`hi = none` is unbounded), `grp` a capture group, `bol`/`eol`
the multiline `^`/`$`, `wb` the word boundary `\b`. -/
inductive RE where
  | eps : RE
  | cls (f : Char → Bool) : RE
  | seq (a b : RE) : RE
  | alt (a b : RE) : RE
  | opt (greedy : Bool) (a : RE) : RE
  | rep (lo : Nat) (hi : Option Nat) (greedy : Bool) (f : Char → Bool) : RE
  | grp (i : Nat) (a : RE) : RE
  | bol : RE
  | eol : RE
  | wb : RE

/-- Captured groups: group index paired with the captured characters. -/
abbrev Grp := List (Nat × List Char)

/-- A match result: the text remaining after the match, and the groups. -/
abbrev MRes := Option (List Char × Grp)

/-- A matcher continuation: previous character, remaining text, groups. -/
abbrev Cont := Option Char → List Char → Grp → MRes

/-- The backtracking matcher, continuation-passing style.  `p` is the
character just before the current position (for `^` and `\b`), `s` the
remaining text.  Preference order mirrors Python `re`: the first
alternative first, greedy repetition consumes first, lazy repetition
yields first.  `fuel` bounds the call depth; every value we use is
computed with ample fuel (`fuelFor`). -/
def mrun (fuel : Nat) (r : RE) (p : Option Char) (s : List Char) (g : Grp)
    (k : Cont) : MRes :=
  match fuel with
  | 0 => none
  | fuel + 1 =>
    match r with
    | .eps => k p s g
    | .cls f =>
      match s with
      | [] => none
      | c :: s2 => if f c then k (some c) s2 g else none
    | .seq a b => mrun fuel a p s g (fun p2 s2 g2 => mrun fuel b p2 s2 g2 k)
    | .alt a b =>
      match mrun fuel a p s g k with
      | some res => some res
      | none => mrun fuel b p s g k
    | .opt greedy a =>
      if greedy then
        match mrun fuel a p s g k with
        | some res => some res
        | none => k p s g
      else
        match k p s g with
        | some res => some res
        | none => mrun fuel a p s g k
    | .rep lo hi greedy f =>
      match lo with
      | lo1 + 1 =>
        match s with
        | [] => none
        | c :: s2 =>
          if f c then
            mrun fuel (.rep lo1 (hi.map (fun h => h - 1)) greedy f) (some c) s2 g k
          else none
      | 0 =>
        if hi = some 0 then k p s g
        else
          let one : MRes :=
            match s with
            | [] => none
            | c :: s2 =>
              if f c then
                mrun fuel (.rep 0 (hi.map (fun h => h - 1)) greedy f) (some c) s2 g k
              else none
          if greedy then
            match one with
            | some res => some res
            | none => k p s g
          else
            match k p s g with
            | some res => some res
            | none => one
    | .grp i a =>
      mrun fuel a p s g
        (fun p2 s2 g2 => k p2 s2 ((i, s.take (s.length - s2.length)) :: g2))
    | .bol => if p = none ∨ p = some '\n' then k p s g else none
    | .eol =>
      match s with
      | [] => k p s g
      | c :: _ => if c = '\n' then k p s g else none
    | .wb =>
      let pw := match p with | some c => isWordC c | none => false
      let nw := match s with | c :: _ => isWordC c | [] => false
      if pw != nw then k p s g else none

/-- Syntactic size of a pattern, for the fuel bound. -/
def reSize : RE → Nat
  | .eps | .bol | .eol | .wb | .cls _ | .rep _ _ _ _ => 1
  | .seq a b | .alt a b => reSize a + reSize b + 1
  | .opt _ a | .grp _ a => reSize a + 1

/-- Ample fuel for one anchored match attempt: along any single search
path each character consumed passes through at most `reSize` nodes. -/
def fuelFor (r : RE) (s : List Char) : Nat := (reSize r + 2) * (s.length + 2)

/-- One anchored match attempt at the current position.  Returns the
remaining text and the groups of the preferred match, like Python `re`
anchored at this position. -/
def tryAt (r : RE) (p : Option Char) (s : List Char) : MRes :=
  mrun (fuelFor r s) r p s [] (fun _ s2 g => some (s2, g))

/-- Leftmost search from absolute position `pos` (with `p` the character
before it); returns `(start, end, groups)` like `re.search`. -/
def searchAux (r : RE) : List Char → Option Char → Nat → Option (Nat × Nat × Grp)
  | s, p, pos =>
    match tryAt r p s with
    | some (s2, g) => some (pos, pos + (s.length - s2.length), g)
    | none =>
      match s with
      | [] => none
      | c :: s2 => searchAux r s2 (some c) (pos + 1)

/-- `re.search` over a whole text. -/
def searchIn (r : RE) (s : List Char) : Option (Nat × Nat × Grp) :=
  searchAux r s none 0

/-- All non-overlapping matches from left to right (`re.finditer`).
The source's patterns never match the empty string; if one did we stop,
whereas Python would advance one character.  `fuel` bounds the number of
matches (each consumes at least one character). -/
def findAllAux (r : RE) : Nat → List Char → Option Char → Nat → List (Nat × Nat × Grp)
  | 0, _, _, _ => []
  | fuel + 1, s, p, pos =>
    match searchAux r s p pos with
    | none => []
    | some (st, en, g) =>
      if en ≤ st then []
      else
        let used := en - pos
        (st, en, g) :: findAllAux r fuel (s.drop used) ((s.take used).getLast?) en

/-- `re.finditer` over a whole text. -/
def findAllIn (r : RE) (s : List Char) : List (Nat × Nat × Grp) :=
  findAllAux r (s.length + 1) s none 0

/-- `re.sub` with a literal replacement.  As in `findAllAux`, the
source's patterns never match the empty string. -/
def subAllAux (r : RE) (rep : List Char) : Nat → List Char → Option Char → List Char
  | 0, s, _ => s
  | fuel + 1, s, p =>
    match searchAux r s p 0 with
    | none => s
    | some (st, en, _) =>
      if en ≤ st then s
      else
        s.take st ++ rep ++ subAllAux r rep fuel (s.drop en) ((s.take en).getLast?)

/-- `re.sub(r, rep, s)` for a literal replacement `rep`. -/
def subAllIn (r : RE) (rep : List Char) (s : List Char) : List Char :=
  subAllAux r rep (s.length + 1) s none

/-- The text before the first match of `r` (`re.split(r, s)[0]`). -/
def beforeFirst (r : RE) (s : List Char) : List Char :=
  match searchIn r s with
  | some (st, _, _) => s.take st
  | none => s

/-- The captured text of group `i` (empty if the group is absent). -/
def grpGet (g : Grp) (i : Nat) : List Char :=
  match g.find? (fun q => q.1 == i) with
  | some q => q.2
  | none => []

/-- The span `s[a:b]` of a text. -/
def sl (t : List Char) (a b : Nat) : List Char := (t.drop a).take (b - a)

/-- Concatenation of `f c` over a string: a case-sensitive literal. -/
def slit (s : String) : RE :=
  (s.toList.map (fun c => RE.cls (litC c))).foldr RE.seq RE.eps

/-- A literal under `re.IGNORECASE`. -/
def sliti (s : String) : RE :=
  (s.toList.map (fun c => RE.cls (ciC c))).foldr RE.seq RE.eps

/-- A case-insensitive literal given as a character list (for patterns
built at run time from captured text, like `re.escape(order_id)`). -/
def slitiL (s : List Char) : RE :=
  (s.map (fun c => RE.cls (ciC c))).foldr RE.seq RE.eps

/-- Concatenation of a list of patterns. -/
def seqL (l : List RE) : RE := l.foldr RE.seq RE.eps

/-- `\s*`. -/
def wsStar : RE := RE.rep 0 none true isSpaceC

/-- `\s+`. -/
def wsPlus : RE := RE.rep 1 none true isSpaceC

/-- Ordered alternation of a list of patterns (first wins). -/
def altL : List RE → RE
  | [] => RE.eps
  | [r] => r
  | r :: rest => RE.alt r (altL rest)

/-! ## Python string primitives (ASCII reading) -/

/-- `str.lower()`. -/
def lowerL (s : List Char) : List Char := s.map Char.toLower

/-- `str.strip()`: drop leading and trailing whitespace. -/
def pyStrip (s : List Char) : List Char :=
  ((s.dropWhile isSpaceC).reverse.dropWhile isSpaceC).reverse

/-- Collapse every whitespace run to one space (`re.sub(r"\s+", " ", s)`).
`pw` records whether the previous character was whitespace. -/
def collapseWsAux : Bool → List Char → List Char
  | _, [] => []
  | pw, c :: r =>
    if isSpaceC c then
      if pw then collapseWsAux true r else ' ' :: collapseWsAux true r
    else c :: collapseWsAux false r

/-- `soft_clean` of the source: `re.sub(r"\s+", " ", s or "").strip()`. -/
def soft_clean (s : List Char) : List Char := pyStrip (collapseWsAux false s)

/-- Python substring containment `needle in hay`. -/
def containsSub (hay needle : List Char) : Bool :=
  match hay with
  | [] => needle.isEmpty
  | _ :: t => needle.isPrefixOf hay || containsSub t needle

/-- `str.split()` with no argument: split on whitespace runs, no empties. -/
def pySplitWs (s : List Char) : List (List Char) :=
  match s with
  | [] => []
  | c :: r =>
    if isSpaceC c then pySplitWs r
    else
      match pySplitWs r with
      | [] => [[c]]
      | w :: ws => if isSpaceC (r.headD ' ') then [c] :: w :: ws else (c :: w) :: ws

/-- `str.split(sep)` for a one-character separator: keeps empty parts. -/
def splitOnC (sep : Char) (s : List Char) : List (List Char) :=
  match s with
  | [] => [[]]
  | c :: r =>
    let rest := splitOnC sep r
    if c == sep then [] :: rest
    else
      match rest with
      | [] => [[c]]
      | w :: ws => (c :: w) :: ws

/-- `" ".join(l)`. -/
def joinSpace : List (List Char) → List Char
  | [] => []
  | [w] => w
  | w :: ws => w ++ ' ' :: joinSpace ws

/-- Digits to a number. -/
def digitsToNat (ds : List Char) : Nat :=
  ds.foldl (fun acc c => 10 * acc + (c.toNat - '0'.toNat)) 0

/-! ## Numbers and dates -/

/-- Python `float(s)` restricted to the character shapes that reach it in
the source: after removing `,` and `$` the regex-captured amounts hold
only digits and dots.  `float` then strips whitespace and accepts a
digit string with at most one dot and at least one digit; anything else
raises, which `amount_to_float` turns into `None`. -/
def pyFloatQ (s : List Char) : Option ℚ :=
  let t := pyStrip s
  if t.isEmpty then none
  else if t.any (fun c => !(c.isDigit || c == '.')) then none
  else if (t.filter (fun c => c == '.')).length > 1 then none
  else if (t.filter Char.isDigit).isEmpty then none
  else
    let intPart := t.takeWhile (fun c => c != '.')
    let fracPart := (t.dropWhile (fun c => c != '.')).drop 1
    some (mkRat (digitsToNat (intPart ++ fracPart)) (10 ^ fracPart.length))

/-- `amount_to_float` of the source: remove `,` and `$`, then `float`,
`None` on failure. -/
def amount_to_float (s : List Char) : Option ℚ :=
  pyFloatQ (s.filter (fun c => !(c == ',' || c == '$')))

/-- Leap year as `datetime` validates it. -/
def isLeap (y : Nat) : Bool := y % 4 == 0 && (y % 100 != 0 || y % 400 == 0)

/-- Days in a month as `datetime` validates them. -/
def daysInMonth (y m : Nat) : Nat :=
  if m == 2 then (if isLeap y then 29 else 28)
  else if m == 4 || m == 6 || m == 9 || m == 11 then 30
  else 31

/-- A calendar date as `datetime.strptime` yields one. -/
structure Date where
  y : Nat
  m : Nat
  d : Nat
deriving DecidableEq

/-- `datetime(y, m, d)` validity (year within `strptime`'s 4-digit range). -/
def dateValid (dt : Date) : Bool :=
  1 ≤ dt.y && dt.y ≤ 9999 && 1 ≤ dt.m && dt.m ≤ 12 &&
    1 ≤ dt.d && dt.d ≤ daysInMonth dt.y dt.m

/-- Take 1 or 2 digits (`strptime`'s `%m`/`%d`), value and rest. -/
def take12 (s : List Char) : Option (Nat × List Char) :=
  match s with
  | c :: r =>
    if c.isDigit then
      match r with
      | c2 :: r2 => if c2.isDigit then some (digitsToNat [c, c2], r2)
                    else some (digitsToNat [c], r)
      | [] => some (digitsToNat [c], [])
    else none
  | [] => none

/-- Take exactly 4 digits (`strptime`'s `%Y`). -/
def take4 (s : List Char) : Option (Nat × List Char) :=
  match s with
  | a :: b :: c :: d :: r =>
    if a.isDigit && b.isDigit && c.isDigit && d.isDigit then
      some (digitsToNat [a, b, c, d], r)
    else none
  | _ => none

/-- One literal character of a `strptime` format. -/
def takeLit (c : Char) (s : List Char) : Option (List Char) :=
  match s with
  | x :: r => if x == c then some r else none
  | _ => none

/-- Whitespace in a `strptime` format matches a nonempty whitespace run. -/
def takeWs (s : List Char) : Option (List Char) :=
  match s with
  | c :: r => if isSpaceC c then some (r.dropWhile isSpaceC) else none
  | [] => none

/-- Full month names, for `%B`. -/
def monthsLong : List String :=
  ["January", "February", "March", "April", "May", "June", "July",
   "August", "September", "October", "November", "December"]

/-- Abbreviated month names, for `%b`. -/
def monthsAbbr : List String :=
  ["Jan", "Feb", "Mar", "Apr", "May", "Jun", "Jul", "Aug", "Sep", "Oct",
   "Nov", "Dec"]

/-- Strip a month name (case-insensitive; no name is a prefix of another
within either table, so first-found is unambiguous). -/
def takeMonthName (names : List String) (s : List Char) : Option (Nat × List Char) :=
  let rec go (i : Nat) : List String → Option (Nat × List Char)
    | [] => none
    | n :: rest =>
      let nl := lowerL n.toList
      if nl.isPrefixOf (lowerL s) then some (i, s.drop nl.length)
      else go (i + 1) rest
  go 1 names

/-- `strptime(s, "%m/%d/%Y")`, full-string match, calendar-validated. -/
def parseMDY (s : List Char) : Option Date := do
  let (m, s) ← take12 s
  let s ← takeLit '/' s
  let (d, s) ← take12 s
  let s ← takeLit '/' s
  let (y, s) ← take4 s
  if s.isEmpty && dateValid ⟨y, m, d⟩ then pure ⟨y, m, d⟩ else none

/-- `strptime(s, "%Y-%m-%d")`. -/
def parseYMD (s : List Char) : Option Date := do
  let (y, s) ← take4 s
  let s ← takeLit '-' s
  let (m, s) ← take12 s
  let s ← takeLit '-' s
  let (d, s) ← take12 s
  if s.isEmpty && dateValid ⟨y, m, d⟩ then pure ⟨y, m, d⟩ else none

/-- `strptime(s, fmt)` for the name-month formats `"%B %d, %Y"` and
`"%b %d, %Y"`. -/
def parseNameDY (names : List String) (s : List Char) : Option Date := do
  let (m, s) ← takeMonthName names s
  let s ← takeWs s
  let (d, s) ← take12 s
  let s ← takeLit ',' s
  let s ← takeWs s
  let (y, s) ← take4 s
  if s.isEmpty && dateValid ⟨y, m, d⟩ then pure ⟨y, m, d⟩ else none

/-- Left-pad a digit string with zeros. -/
def padZ (w : Nat) (n : Nat) : List Char :=
  let ds := (toString n).toList
  List.replicate (w - ds.length) '0' ++ ds

/-- `strftime("%Y-%m-%d")` (glibc prints the year unpadded, the month
and day zero-padded to two digits). -/
def fmtISO (dt : Date) : List Char :=
  (toString dt.y).toList ++ '-' :: (padZ 2 dt.m ++ '-' :: padZ 2 dt.d)

/-- `try_parse_date` of the source: formats
`%b %d, %Y` / `%B %d, %Y` / `%Y-%m-%d` / `%m/%d/%Y` in that order, else
the stripped input. -/
def try_parse_date (s : List Char) : List Char :=
  let t := pyStrip s
  match parseNameDY monthsAbbr t with
  | some dt => fmtISO dt
  | none =>
    match parseNameDY monthsLong t with
    | some dt => fmtISO dt
    | none =>
      match parseYMD t with
      | some dt => fmtISO dt
      | none =>
        match parseMDY t with
        | some dt => fmtISO dt
        | none => t

/-- The format cascade of `normalize_date`:
`%m/%d/%Y`, `%Y-%m-%d`, `%B %d, %Y`, `%b %d, %Y` in that order. -/
def normalize_date_fmt (s : List Char) : Option (List Char) :=
  match parseMDY s with
  | some dt => some (fmtISO dt)
  | none =>
    match parseYMD s with
    | some dt => some (fmtISO dt)
    | none =>
      match parseNameDY monthsLong s with
      | some dt => some (fmtISO dt)
      | none => (parseNameDY monthsAbbr s).map fmtISO

/-- The body of `normalize_date`, fuelled for its recursion into the
parts of a date range split on `-` (each part is strictly shorter than
the split input, so length-based fuel never runs out on a real call). -/
def normalize_date_aux : Nat → List Char → List Char
  | 0, s0 => pyStrip s0
  | fuel + 1, s0 =>
    let s := pyStrip s0
    match normalize_date_fmt s with
    | some out => out
    | none =>
      if s.contains '-' then
        let parts := (splitOnC '-' s).map pyStrip
        match parts.reverse.findSome?
            (fun p =>
              let n := normalize_date_aux fuel p
              if n ≠ p then some n else none) with
        | some n => n
        | none => s
      else s

/-- `normalize_date` of the source. -/
def normalize_date (s : List Char) : List Char :=
  normalize_date_aux (s.length + 1) s

/-! ## Client Code Resolver -/

/-- A Python dict as the client-code map: an ordered association list
with (as in a dict) distinct keys; lookup is first-match. -/
def lookupA (k : List Char) (m : List (List Char × List Char)) :
    Option (List Char) :=
  (m.find? (fun kv => kv.1 == k)).map (fun kv => kv.2)

/-- `map_primary_from_custref` of the source: guard on empty input or
map, then exact dict lookup, then first case-insensitive key match, then
first case-insensitive substring match (skipping empty keys), else `""`. -/
def map_primary_from_custref (cust : List Char)
    (m : List (List Char × List Char)) : List Char :=
  if cust.isEmpty || m.isEmpty then []
  else
    let ref := soft_clean cust
    match lookupA ref m with
    | some v => v
    | none =>
      match m.find? (fun kv => lowerL ref == lowerL kv.1) with
      | some kv => kv.2
      | none =>
        match m.find? (fun kv =>
            !kv.1.isEmpty && containsSub (lowerL ref) (lowerL kv.1)) with
        | some kv => kv.2
        | none => []

/-! ## The FedEx parser's patterns (class `FedExParser` of the source) -/

/-- `X?` over a character class. -/
def rep01 (f : Char → Bool) : RE := RE.rep 0 (some 1) true f

/-- `(\d{1,2})`-shaped piece: one or two digits. -/
def d12 : RE := RE.rep 1 (some 2) true isDigitC

/-- Exactly four digits. -/
def d4 : RE := RE.rep 4 (some 4) true isDigitC

/-- `Invoice\s+Number\s+([^\s]+).*?Invoice\s+Date\s+([A-Za-z]{3,9}\s+\d{1,2},\s+\d{4})`
with `re.I | re.S`. -/
def INVOICE_HEADER_RX : RE :=
  seqL [sliti "Invoice", wsPlus, sliti "Number", wsPlus,
    RE.grp 1 (RE.rep 1 none true notSpaceC),
    RE.rep 0 none false anyC,
    sliti "Invoice", wsPlus, sliti "Date", wsPlus,
    RE.grp 2 (seqL [RE.rep 3 (some 9) true isAlphaC, wsPlus, d12,
      RE.cls (litC ','), wsPlus, d4])]

/-- `Total\s*(?:Charge|Transportation\s*Charges)\s+USD\s+\$?\s*([\d,]+\.?\d{2})`
with `re.I`. -/
def TOTAL_RX : RE :=
  seqL [sliti "Total", wsStar,
    RE.alt (sliti "Charge") (seqL [sliti "Transportation", wsStar, sliti "Charges"]),
    wsPlus, sliti "USD", wsPlus, rep01 (litC '$'), wsStar,
    RE.grp 1 (seqL [RE.rep 1 none true digCommaC, rep01 (litC '.'),
      RE.rep 2 (some 2) true isDigitC])]

/-- `Tracking\s*ID[:\s]+(\d{9,18})` with `re.I`. -/
def TRACK_RX : RE :=
  seqL [sliti "Tracking", wsStar, sliti "ID", RE.rep 1 none true colonWsC,
    RE.grp 1 (RE.rep 9 (some 18) true isDigitC)]

/-- `(continued\s+on\s+next\s+page\nTracking\s*ID[:\s]+\d+\s+continued)`
with `re.I`. -/
def CONT_RX : RE :=
  RE.grp 1 (seqL [sliti "continued", wsPlus, sliti "on", wsPlus, sliti "next",
    wsPlus, sliti "page", RE.cls (litC '\n'), sliti "Tracking", wsStar,
    sliti "ID", RE.rep 1 none true colonWsC, RE.rep 1 none true isDigitC,
    wsPlus, sliti "continued"])

/-- `Cust\.\s*Ref\.?\s*:\s*(.+)` with `re.I`. -/
def CUST_REF_RX : RE :=
  seqL [sliti "Cust.", wsStar, sliti "Ref", rep01 (litC '.'), wsStar,
    RE.cls (litC ':'), wsStar, RE.grp 1 (RE.rep 1 none true anyNL)]

/-- `^\s*Sender\s+(.+)$` with `re.I | re.M`. -/
def SENDER_RX : RE :=
  seqL [RE.bol, wsStar, sliti "Sender", wsPlus,
    RE.grp 1 (RE.rep 1 none true anyNL), RE.eol]

/-- `Other Charges\s*USD\s*\$?\s*([\d,.]+)` with `re.I`. -/
def OTHER_CHARGES_RX : RE :=
  seqL [sliti "Other Charges", wsStar, sliti "USD", wsStar, rep01 (litC '$'),
    wsStar, RE.grp 1 (RE.rep 1 none true digCommaDotC)]

/-- `Late Fee.*?(\d{2}/\d{2}/\d{2,4}).*?([\d,.]+)$` with `re.I | re.M`. -/
def LATE_FEE_RX : RE :=
  seqL [sliti "Late Fee", RE.rep 0 none false anyNL,
    RE.grp 1 (seqL [RE.rep 2 (some 2) true isDigitC, RE.cls (litC '/'),
      RE.rep 2 (some 2) true isDigitC, RE.cls (litC '/'),
      RE.rep 2 (some 4) true isDigitC]),
    RE.rep 0 none false anyNL,
    RE.grp 2 (RE.rep 1 none true digCommaDotC), RE.eol]

/-- `\bUSD\b` with `re.I`. -/
def USD_RX : RE := seqL [RE.wb, sliti "USD", RE.wb]

/-- `\bGelfand\b` with `re.I` (split point of `extract_sender_name`). -/
def GELFAND_SPLIT_RX : RE := seqL [RE.wb, sliti "Gelfand", RE.wb]

/-- `\s+Gelfand.*$` with `re.I` (tail trim of `extract_sender_name`). -/
def GELFAND_TAIL_RX : RE :=
  seqL [wsPlus, sliti "Gelfand", RE.rep 0 none true anyNL, RE.eol]

/-- `^\s*Sender\s+` with `re.I` — anchored, so `re.sub` strips at most a
leading occurrence. -/
def SENDER_PREFIX_RX : RE := seqL [wsStar, sliti "Sender", wsPlus]

/-! ## The FedEx parser -/

/-- The fields `FedExParser.parse` extracts from one `Ship Date:` block:
`cust_line`, `sender`, `total_amt`, `tracking`, `continued`. -/
structure Blk where
  cust : Option (List Char)
  sender : Option (List Char)
  total : Option ℚ
  tracking : Option (List Char)
  continued : Bool
deriving DecidableEq

/-- Python truthiness for an optional string: `None` and `""` are falsy. -/
def truthyS (o : Option (List Char)) : Bool :=
  match o with
  | none => false
  | some s => !s.isEmpty

/-- Python `a or b` on optional strings. -/
def pyOrO (a b : Option (List Char)) : Option (List Char) :=
  if truthyS a then a else b

/-- Python `x or ""` (also used for plain optionals whose value is kept). -/
def orEmpty (o : Option (List Char)) : List Char :=
  match o with
  | some s => s
  | none => []

/-- `FedExParser.iter_ship_blocks`: positions of all non-overlapping
occurrences of the start label, scanning left to right. -/
def occAux (needle : List Char) : Nat → List Char → Nat → List Nat
  | 0, _, _ => []
  | fuel + 1, s, pos =>
    match s with
    | [] => []
    | _ :: t =>
      if needle.isPrefixOf s then
        pos :: occAux needle fuel (s.drop needle.length) (pos + needle.length)
      else occAux needle fuel t (pos + 1)

/-- All occurrence positions of `needle` in `t` (as
`re.finditer(re.escape(needle), t)` yields them). -/
def occList (needle t : List Char) : List Nat :=
  occAux needle (t.length + 1) t 0

/-- The block spans: consecutive starts, the last block running to the
end of the text (`starts.append(len(text))` in the source). -/
def pairBlocks (t : List Char) : List Nat → List (List Char)
  | [] => []
  | [a] => [sl t a t.length]
  | a :: b :: r => sl t a b :: pairBlocks t (b :: r)

/-- The `Ship Date:` start label. -/
def shipLabel : List Char := "Ship Date:".toList

/-- `FedExParser.iter_ship_blocks(text, "Ship Date:")`. -/
def iter_ship_blocks (t : List Char) : List (List Char) :=
  match occList shipLabel t with
  | [] => []
  | starts => pairBlocks t starts

/-- `FedExParser.extract_sender_name` on the full `Sender` match line. -/
def extract_sender_name (line : List Char) : List Char :=
  let s0 :=
    match tryAt SENDER_PREFIX_RX none line with
    | some (s2, _) => s2
    | none => line
  let s := pyStrip s0
  let cut := pyStrip (beforeFirst GELFAND_SPLIT_RX s)
  if !cut.isEmpty then
    (pyStrip (subAllIn GELFAND_TAIL_RX [] cut)).take 80
  else
    match pySplitWs s with
    | [] => s.take 80
    | toks => (joinSpace (toks.take 3)).take 80

/-- The per-block field extraction inside `FedExParser.parse`'s loop. -/
def fedFields (blk : List Char) : Blk :=
  let cust := (searchIn CUST_REF_RX blk).map (fun r => pyStrip (grpGet r.2.2 1))
  let sender := (searchIn SENDER_RX blk).map
    (fun r => extract_sender_name (sl blk r.1 r.2.1))
  let total := (findAllIn TOTAL_RX blk).getLast?.bind
    (fun r => amount_to_float (grpGet r.2.2 1))
  let tracking := (searchIn TRACK_RX blk).map (fun r => pyStrip (grpGet r.2.2 1))
  ⟨cust, sender, total, tracking, (searchIn CONT_RX blk).isSome⟩

/-- A unified-output row value: a string or a parsed amount (the Python
dict holds a `float` for found amounts, a string otherwise). -/
inductive Val where
  | vs (s : List Char)
  | vq (q : ℚ)
deriving DecidableEq

/-- A unified-output row, as the ordered key/value list of the Python
dict literal that creates it. -/
abbrev Row := List (String × Val)

/-- The per-file context `emit_row` closes over. -/
structure FedCtx where
  fname : List Char
  inv_no : Option (List Char)
  inv_date : Option (List Char)
  currency : List Char
  cmap : List (List Char × List Char)

/-- `emit_row` inside `FedExParser.parse` (tracking is consumed for the
merge only, not emitted). -/
def emit_row (ctx : FedCtx) (sender cust _tracking : Option (List Char))
    (total : Option ℚ) : Row :=
  let primary := map_primary_from_custref (soft_clean (orEmpty cust)) ctx.cmap
  [("InvoiceFileName", .vs ctx.fname),
   ("Vendor", .vs "FedEx".toList),
   ("InvoiceID", .vs (orEmpty ctx.inv_no)),
   ("InvoiceDate", .vs (orEmpty ctx.inv_date)),
   ("DueDate", .vs []),
   ("Description", .vs "FedEx".toList),
   ("Quantity", .vs []),
   ("UnitPrice", .vs []),
   ("Amount", match total with | some q => .vq q | none => .vs []),
   ("Currency", .vs ctx.currency),
   ("FedEx_Sender", .vs (orEmpty sender)),
   ("FedEx_CustRef", .vs (soft_clean (orEmpty cust))),
   ("PrimaryClientCode", .vs primary)]

/-- The single-slot pending register of `FedExParser.parse`. -/
structure Pending where
  tracking : Option (List Char)
  cust : Option (List Char)
  sender : Option (List Char)
deriving DecidableEq

/-- The loop state of `FedExParser.parse`: emitted rows and the pending
register. -/
structure FedSt where
  rows : List Row
  pending : Option Pending

/-- Steps 4 of the merge algorithm: evaluate the current block fresh
(emit on a total, else hold any signals as the new pending). -/
def fedFresh (ctx : FedCtx) (st : FedSt) (f : Blk) : FedSt :=
  if f.total.isSome then
    { st with rows := st.rows ++ [emit_row ctx f.sender f.cust f.tracking f.total] }
  else if truthyS f.sender || truthyS f.cust || f.continued || truthyS f.tracking then
    { st with pending := some ⟨f.tracking, f.cust, f.sender⟩ }
  else st

/-- One iteration of `FedExParser.parse`'s block loop (steps 1–4 of the
merge algorithm). -/
def fedStep (ctx : FedCtx) (st : FedSt) (f : Blk) : FedSt :=
  match st.pending with
  | none => fedFresh ctx st f
  | some p =>
    let same := truthyS f.tracking && truthyS p.tracking &&
      f.tracking == p.tracking
    if f.total.isSome && (same || f.continued || !truthyS f.tracking) then
      { rows := st.rows ++ [emit_row ctx (pyOrO p.sender f.sender)
          (pyOrO p.cust f.cust) (pyOrO p.tracking f.tracking) f.total],
        pending := none }
    else if same then
      { st with pending := some ⟨p.tracking,
          (if truthyS p.cust then p.cust else f.cust),
          (if truthyS p.sender then p.sender else f.sender)⟩ }
    else fedFresh ctx { st with pending := none } f

/-- The whole block loop of `FedExParser.parse`. -/
def fedFold (ctx : FedCtx) (bs : List Blk) : FedSt :=
  bs.foldl (fedStep ctx) ⟨[], none⟩

/-- `FedExParser.parse_invoice_header` (searched over the first 4000
characters). -/
def parse_invoice_header (t : List Char) :
    Option (List Char) × Option (List Char) :=
  match searchIn INVOICE_HEADER_RX (t.take 4000) with
  | none => (none, none)
  | some r =>
    (some (pyStrip (grpGet r.2.2 1)),
     some (try_parse_date (pyStrip (grpGet r.2.2 2))))

/-- `FedExParser.parse_other_charges`: the `Other Charges` summary form,
else the `Late Fee` detail form, else nothing. -/
def parse_other_charges (t : List Char) : Option ℚ :=
  match searchIn OTHER_CHARGES_RX t with
  | some r => amount_to_float (grpGet r.2.2 1)
  | none =>
    match searchIn LATE_FEE_RX t with
    | some r => amount_to_float (grpGet r.2.2 2)
    | none => none

/-- `FedExParser.is_usd`. -/
def is_usd (t : List Char) : Bool := (searchIn USD_RX t).isSome

/-- The aggregate `Other Charges` row appended after the block loop. -/
def otherChargesRow (ctx : FedCtx) (oc : ℚ) (t : List Char) : Row :=
  [("InvoiceFileName", .vs ctx.fname),
   ("Vendor", .vs "FedEx".toList),
   ("InvoiceID", .vs (orEmpty ctx.inv_no)),
   ("InvoiceDate", .vs (orEmpty ctx.inv_date)),
   ("DueDate", .vs []),
   ("Description", .vs "FedEx Other Charges".toList),
   ("Quantity", .vs []),
   ("UnitPrice", .vs []),
   ("Amount", .vq oc),
   ("Currency", .vs (if ctx.currency = "USD".toList ∨
      containsSub t "USD".toList then "USD".toList else [])),
   ("FedEx_Sender", .vs []),
   ("FedEx_CustRef", .vs []),
   ("PrimaryClientCode", .vs [])]

/-- The per-file context of one `FedExParser.parse` call: header fields,
currency and client map. -/
def fedCtxOf (cmap : List (List Char × List Char)) (text fname : List Char) :
    FedCtx :=
  let hdr := parse_invoice_header text
  ⟨fname, hdr.1, hdr.2, (if is_usd text then "USD".toList else []), cmap⟩

/-- `FedExParser.parse(pdf_text, file_name)` with the given client map. -/
def fedParse (cmap : List (List Char × List Char)) (text fname : List Char) :
    List Row :=
  let ctx := fedCtxOf cmap text fname
  let st := fedFold ctx ((iter_ship_blocks text).map fedFields)
  match parse_other_charges text with
  | some oc => st.rows ++ [otherChargesRow ctx oc text]
  | none => st.rows

/-! ## The Lightning Messenger parser (class `LightningParser`) -/

/-- `Invoice\s+Number\s+(\d{3,})\s+(\d{1,2}/\d{1,2}/\d{4})` with `re.I`. -/
def HDR_A : RE :=
  seqL [sliti "Invoice", wsPlus, sliti "Number", wsPlus,
    RE.grp 1 (RE.rep 3 none true isDigitC), wsPlus,
    RE.grp 2 (seqL [d12, RE.cls (litC '/'), d12, RE.cls (litC '/'), d4])]

/-- The `Customer Number … Invoice Amount`-headed variant (`HDR_B`). -/
def HDR_B : RE :=
  seqL [sliti "Customer", wsPlus, sliti "Number", wsPlus, sliti "Invoice",
    wsPlus, sliti "Number", wsPlus, sliti "Invoice", wsPlus, sliti "Date",
    wsPlus, sliti "Invoice", wsPlus, sliti "Amount", wsPlus,
    RE.rep 1 none true isDigitC, wsPlus,
    RE.grp 1 (RE.rep 3 none true isDigitC), wsPlus,
    RE.grp 2 (seqL [d12, RE.cls (litC '/'), d12, RE.cls (litC '/'), d4])]

/-- `Totals:\s*Billing\s*Reference\s*1\s*\-\s*(\d{7,})\s*Total:\s*\$?\s*([\d,]+\.\d{2})`
with `re.I`. -/
def REF_TOTAL_RX : RE :=
  seqL [sliti "Totals:", wsStar, sliti "Billing", wsStar, sliti "Reference",
    wsStar, RE.cls (litC '1'), wsStar, RE.cls (litC '-'), wsStar,
    RE.grp 1 (RE.rep 7 none true isDigitC), wsStar, sliti "Total:", wsStar,
    rep01 (litC '$'), wsStar,
    RE.grp 2 (seqL [RE.rep 1 none true digCommaC, RE.cls (litC '.'),
      RE.rep 2 (some 2) true isDigitC])]

/-- `Billing\s+Reference\s+1\s+(\d{7,})` with `re.I`. -/
def REF_START_RX : RE :=
  seqL [sliti "Billing", wsPlus, sliti "Reference", wsPlus, RE.cls (litC '1'),
    wsPlus, RE.grp 1 (RE.rep 7 none true isDigitC)]

/-- `\b(\d{1,2}/\d{1,2}/\d{4})\b`. -/
def DATE_RX : RE :=
  seqL [RE.wb,
    RE.grp 1 (seqL [d12, RE.cls (litC '/'), d12, RE.cls (litC '/'), d4]),
    RE.wb]

/-- `([0-9]{5,}(?:\.\d{2})?)`: an order id. -/
def oidCore : RE :=
  seqL [RE.rep 5 none true isDigitC,
    RE.opt true (seqL [RE.cls (litC '.'), RE.rep 2 (some 2) true isDigitC])]

/-- `Order\s+ID\s+([0-9]{5,}(?:\.\d{2})?)` with `re.I`. -/
def ORDER_ID_FROM_LABEL : RE :=
  seqL [sliti "Order", wsPlus, sliti "ID", wsPlus, RE.grp 1 oidCore]

/-- `\b([0-9]{5,}(?:\.\d{2})?)\b`. -/
def ORDER_ID_FALLBACK : RE := seqL [RE.wb, RE.grp 1 oidCore, RE.wb]

/-- `re.escape(order_id) + r"\s+(.{2,100}?)\s+(?:Gelfand|SB|City\s+of|Deliver|-|\d{3,})"`
with `re.S | re.I` (the order id holds only digits and dots, which
`re.escape` makes literal). -/
def callerRx1 (oid : List Char) : RE :=
  seqL [slitiL oid, wsPlus, RE.grp 1 (RE.rep 2 (some 100) false anyC), wsPlus,
    altL [sliti "Gelfand", sliti "SB", seqL [sliti "City", wsPlus, sliti "of"],
      sliti "Deliver", RE.cls (litC '-'), RE.rep 3 none true isDigitC]]

/-- The 60-character fallback `re.escape(order_id) + r"\s+(.{2,60})"`
with `re.S | re.I`. -/
def callerRx2 (oid : List Char) : RE :=
  seqL [slitiL oid, wsPlus, RE.grp 1 (RE.rep 2 (some 60) true anyC)]

/-- `LightningParser._caller_near`. -/
def caller_near (oid block : List Char) : List Char :=
  if oid.isEmpty then []
  else
    match searchIn (callerRx1 oid) block with
    | some r => soft_clean (grpGet r.2.2 1)
    | none =>
      match searchIn (callerRx2 oid) block with
      | some r => soft_clean (grpGet r.2.2 1)
      | none => []

/-- Dict insertion `out[k] = v`: overwrite an existing key, else append. -/
def dictSetQ (k : List Char) (v : ℚ) (m : List (List Char × ℚ)) :
    List (List Char × ℚ) :=
  if m.any (fun kv => kv.1 == k) then
    m.map (fun kv => if kv.1 == k then (k, v) else kv)
  else m ++ [(k, v)]

/-- Dict lookup `m.get(k, None)`. -/
def lookupQ (k : List Char) (m : List (List Char × ℚ)) : Option ℚ :=
  (m.find? (fun kv => kv.1 == k)).map (fun kv => kv.2)

/-- `LightningParser._totals_by_reference`: sequential insertion, a later
occurrence of a reference overwrites the earlier (`out[ref] =
amount_to_float(amt) or 0.0`, so an unparsable or zero amount is 0.0). -/
def totals_by_reference (t : List Char) : List (List Char × ℚ) :=
  (findAllIn REF_TOTAL_RX t).foldl
    (fun out r =>
      dictSetQ (grpGet r.2.2 1) ((amount_to_float (grpGet r.2.2 2)).getD 0) out)
    []

/-- `LightningParser._extract_header` over the first 5000 characters:
`HDR_A` then `HDR_B`, else `("", "")`. -/
def light_extract_header (t : List Char) : List Char × List Char :=
  let t5 := t.take 5000
  match searchIn HDR_A t5 with
  | some r => (grpGet r.2.2 1, try_parse_date (grpGet r.2.2 2))
  | none =>
    match searchIn HDR_B t5 with
    | some r => (grpGet r.2.2 1, try_parse_date (grpGet r.2.2 2))
    | none => ([], [])

/-- Python `a or b` on plain strings. -/
def pyOrS (a b : List Char) : List Char := if a.isEmpty then b else a

/-- Attach to each reference start the start of the next reference (the
document end for the last): the `refs_with_end` list of the source. -/
def refsWithEnd : List (List Char × Nat) → Nat → List (List Char × Nat × Nat)
  | [], _ => []
  | [(r, s)], len => [(r, s, len)]
  | (r, s) :: (r2, s2) :: rest, len => (r, s, s2) :: refsWithEnd ((r2, s2) :: rest) len

/-- One emitted row of `LightningParser.parse` for a reference block. -/
def lightRow (cmap : List (List Char × List Char)) (hdr : List Char × List Char)
    (totals : List (List Char × ℚ)) (text fname : List Char)
    (ref : List Char) (start stop : Nat) : Row :=
  let block := sl text start stop
  let mdate := searchIn DATE_RX block
  let date_found :=
    match mdate with
    | some r => try_parse_date (grpGet r.2.2 1)
    | none => []
  let order_id :=
    match searchIn ORDER_ID_FROM_LABEL block with
    | some r => grpGet r.2.2 1
    | none =>
      match mdate with
      | some r =>
        match searchIn ORDER_ID_FALLBACK (sl block r.2.1 (r.2.1 + 160)) with
        | some r2 => grpGet r2.2.2 1
        | none => []
      | none => []
  let caller := if !order_id.isEmpty then caller_near order_id block else []
  let amt := lookupQ ref totals
  let primary := map_primary_from_custref (soft_clean ref) cmap
  [("InvoiceFileName", .vs fname),
   ("Vendor", .vs "Lightning Messenger Express".toList),
   ("InvoiceID", .vs hdr.1),
   ("InvoiceDate", .vs (pyOrS date_found hdr.2)),
   ("DueDate", .vs []),
   ("Description", .vs "Lightning Messenger".toList),
   ("Quantity", .vs []),
   ("UnitPrice", .vs []),
   ("Amount", match amt with | some q => .vq q | none => .vs []),
   ("Currency", .vs "USD".toList),
   ("FedEx_Sender", .vs caller),
   ("FedEx_CustRef", .vs ref),
   ("PrimaryClientCode", .vs primary)]

/-- `LightningParser.parse(pdf_text, file_name)`: empty when no
`Billing Reference 1 <ref>` anchor matches, else one row per reference
block. -/
def lightParse (cmap : List (List Char × List Char)) (text fname : List Char) :
    List Row :=
  let hdr := light_extract_header text
  let totals := totals_by_reference text
  let refs := (findAllIn REF_START_RX text).map (fun r => (grpGet r.2.2 1, r.1))
  match refs with
  | [] => []
  | _ =>
    (refsWithEnd refs text.length).map
      (fun rse => lightRow cmap hdr totals text fname rse.1 rse.2.1 rse.2.2)

/-! ## The generic fallback parser (`generic_invoice_parser`) -/

/-- `Invoice\s*Number[:\s]*([A-Z0-9\-]+)` with `re.I`. -/
def G_INVID1 : RE :=
  seqL [sliti "Invoice", wsStar, sliti "Number", RE.rep 0 none true colonWsC,
    RE.grp 1 (RE.rep 1 none true alnumDashC)]

/-- `Inv(?:oice)?\s*#[:\s]*([A-Z0-9\-]+)` with `re.I`. -/
def G_INVID2 : RE :=
  seqL [sliti "Inv", RE.opt true (sliti "oice"), wsStar, RE.cls (litC '#'),
    RE.rep 0 none true colonWsC, RE.grp 1 (RE.rep 1 none true alnumDashC)]

/-- `\d{1,2}/\d{1,2}/\d{2,4}`. -/
def slashDate24 : RE :=
  seqL [d12, RE.cls (litC '/'), d12, RE.cls (litC '/'),
    RE.rep 2 (some 4) true isDigitC]

/-- `[A-Za-z]+\s+\d{1,2},\s*\d{4}`. -/
def monthDayYear : RE :=
  seqL [RE.rep 1 none true isAlphaC, wsPlus, d12, RE.cls (litC ','), wsStar, d4]

/-- `Invoice\s*Date[:\s]*(\d{1,2}/\d{1,2}/\d{2,4})` with `re.I`. -/
def G_DATE1 : RE :=
  seqL [sliti "Invoice", wsStar, sliti "Date", RE.rep 0 none true colonWsC,
    RE.grp 1 slashDate24]

/-- `Date of issue[:\s]*([A-Za-z]+\s+\d{1,2},\s*\d{4})` with `re.I`. -/
def G_DATE2 : RE :=
  seqL [sliti "Date of issue", RE.rep 0 none true colonWsC, RE.grp 1 monthDayYear]

/-- `Date due[:\s]*([A-Za-z]+\s+\d{1,2},\s*\d{4})` with `re.I`. -/
def G_DATE3 : RE :=
  seqL [sliti "Date due", RE.rep 0 none true colonWsC, RE.grp 1 monthDayYear]

/-- `Invoice Period[:\s]*(… (?:\s*-\s*…)?)` with `re.I`. -/
def G_DATE4 : RE :=
  seqL [sliti "Invoice Period", RE.rep 0 none true colonWsC,
    RE.grp 1 (seqL [slashDate24,
      RE.opt true (seqL [wsStar, RE.cls (litC '-'), wsStar, slashDate24])])]

/-- `[0-9,]+\.\d{2}`. -/
def amtCore : RE :=
  seqL [RE.rep 1 none true digCommaC, RE.cls (litC '.'),
    RE.rep 2 (some 2) true isDigitC]

/-- `Total\s*Amount[:\s\$]*([0-9,]+\.\d{2})` with `re.I`. -/
def G_AMT1 : RE :=
  seqL [sliti "Total", wsStar, sliti "Amount",
    RE.rep 0 none true colonWsDollarC, RE.grp 1 amtCore]

/-- `Amount\s*Due[:\s\$]*([0-9,]+\.\d{2})` with `re.I`. -/
def G_AMT2 : RE :=
  seqL [sliti "Amount", wsStar, sliti "Due",
    RE.rep 0 none true colonWsDollarC, RE.grp 1 amtCore]

/-- `Total[:\s\$]*([0-9,]+\.\d{2})` with `re.I`. -/
def G_AMT3 : RE :=
  seqL [sliti "Total", RE.rep 0 none true colonWsDollarC, RE.grp 1 amtCore]

/-- `Amount due\s*\$?([0-9,]+\.\d{2})` with `re.I`. -/
def G_AMT4 : RE :=
  seqL [sliti "Amount due", wsStar, rep01 (litC '$'), RE.grp 1 amtCore]

/-- The dedicated due-date pattern
`Date due[:\s]*([A-Za-z]+\s+\d{1,2},\s*\d{4}|[0-9]{1,2}/[0-9]{1,2}/[0-9]{2,4})`
with `re.I`. -/
def G_DUE_RX : RE :=
  seqL [sliti "Date due", RE.rep 0 none true colonWsC,
    RE.grp 1 (RE.alt monthDayYear slashDate24)]

/-- The legal-entity-suffix vendor heuristic pattern, `re.I`. -/
def G_LEGAL_RX : RE :=
  RE.grp 1 (altL [sliti "Inc.", sliti "LLC", sliti "Ltd", sliti "Company",
    sliti "Corporation", sliti "Collective", sliti "Express",
    sliti "Chartmetric"])

/-- `(Remit Payment To|From|Bill to|Vendor)` with `re.I`. -/
def G_LABEL_RX : RE :=
  RE.grp 1 (altL [sliti "Remit Payment To", sliti "From", sliti "Bill to",
    sliti "Vendor"])

/-- `Invoice|Date|Number|Amount|Bill to|Ship to|Due` with `re.I`. -/
def G_HDRLIKE_RX : RE :=
  altL [sliti "Invoice", sliti "Date", sliti "Number", sliti "Amount",
    sliti "Bill to", sliti "Ship to", sliti "Due"]

/-- `\b(USD|EUR|GBP|AUD|CAD|JPY|CHF|CNY|INR)\b` — case-sensitive. -/
def G_CUR_RX : RE :=
  seqL [RE.wb, RE.grp 1 (altL [slit "USD", slit "EUR", slit "GBP", slit "AUD",
    slit "CAD", slit "JPY", slit "CHF", slit "CNY", slit "INR"]), RE.wb]

/-- The ordered pattern lists of the `patterns` dict. -/
def gInvIdRxs : List RE := [G_INVID1, G_INVID2]

/-- The `InvoiceDate` pattern list. -/
def gDateRxs : List RE := [G_DATE1, G_DATE2, G_DATE3, G_DATE4]

/-- The `Amount` pattern list. -/
def gAmtRxs : List RE := [G_AMT1, G_AMT2, G_AMT3, G_AMT4]

/-- First pattern of a list that matches; its stripped first group. -/
def firstMatch (rxs : List RE) (t : List Char) : Option (List Char) :=
  rxs.findSome? (fun rx => (searchIn rx t).map (fun r => pyStrip (grpGet r.2.2 1)))

/-- Dict assignment `r[k] = v`: overwrite an existing key in place, else
append (every key the generic parser assigns already exists in the
initial dict literal). -/
def dictSet (k : String) (v : Val) (r : Row) : Row :=
  if r.any (fun kv => kv.1 == k) then
    r.map (fun kv => if kv.1 == k then (k, v) else kv)
  else r ++ [(k, v)]

/-- The initial `result` dict literal of `generic_invoice_parser`. -/
def genericInit (fname : List Char) : Row :=
  [("InvoiceFileName", .vs fname),
   ("Vendor", .vs []), ("InvoiceID", .vs []), ("InvoiceDate", .vs []),
   ("DueDate", .vs []), ("Description", .vs "Generic Invoice".toList),
   ("Quantity", .vs []), ("UnitPrice", .vs []), ("Amount", .vs []),
   ("Currency", .vs []), ("FedEx_Sender", .vs []), ("FedEx_CustRef", .vs []),
   ("PrimaryClientCode", .vs [])]

/-- Keep the first occurrence of each element (`list(dict.fromkeys(l))`). -/
def dedupeAux (seen : List (List Char)) : List (List Char) → List (List Char)
  | [] => []
  | x :: r =>
    if seen.contains x then dedupeAux seen r
    else x :: dedupeAux (x :: seen) r

/-- The stripped nonempty lines of the text. -/
def neLines (t : List Char) : List (List Char) :=
  ((splitOnC '\n' t).map pyStrip).filter (fun l => !l.isEmpty)

/-- The first non-header-like line among the up-to-three lines after a
vendor label line. -/
def vendorLookahead (lines : List (List Char)) (i : Nat) : Option (List Char) :=
  ((List.range' (i + 1) (min (i + 4) lines.length - (i + 1))).map
      (fun j => lines.getD j [])).find?
    (fun l => !(searchIn G_HDRLIKE_RX l).isSome)

/-- The vendor-candidate collection loop of `generic_invoice_parser`. -/
def vendorCandidates (lines : List (List Char)) : List (List Char) :=
  (List.range lines.length).foldl
    (fun acc i =>
      let line := lines.getD i []
      let acc1 := if (searchIn G_LEGAL_RX line).isSome then acc ++ [line] else acc
      if (searchIn G_LABEL_RX line).isSome then
        match vendorLookahead lines i with
        | some l => acc1 ++ [l]
        | none => acc1
      else acc1)
    []

/-- The single `result` row `generic_invoice_parser` builds: the initial
dict literal, then the field assignments of the source in order. -/
def genericRow (text fname : List Char) : Row :=
  let r0 := genericInit fname
  let r1 := match firstMatch gInvIdRxs text with
    | some v => dictSet "InvoiceID" (.vs v) r0
    | none => r0
  let r2 := match firstMatch gDateRxs text with
    | some v => dictSet "InvoiceDate" (.vs (normalize_date v)) r1
    | none => r1
  let r3 := match firstMatch gAmtRxs text with
    | some v => dictSet "Amount" (.vs v) r2
    | none => r2
  let r4 := match searchIn G_DUE_RX text with
    | some r => dictSet "DueDate" (.vs (normalize_date (pyStrip (grpGet r.2.2 1)))) r3
    | none => r3
  let lines := neLines text
  let cands := dedupeAux [] (vendorCandidates lines)
  let r5 := match cands with
    | c :: _ => dictSet "Vendor" (.vs c) r4
    | [] =>
      match (lines.take 6).find? (fun l => (searchIn G_LEGAL_RX l).isSome) with
      | some l => dictSet "Vendor" (.vs l) r4
      | none => r4
  let r6 := match searchIn G_DUE_RX text with
    | some r => dictSet "DueDate" (.vs (pyStrip (grpGet r.2.2 1))) r5
    | none => r5
  match searchIn G_CUR_RX text with
  | some r => dictSet "Currency" (.vs (grpGet r.2.2 1)) r6
  | none => r6

/-- `generic_invoice_parser(pdf_text, file_name)`: always the one-row
list `[result]`.  (The source's name ends in a word this development
cannot use as a name suffix, hence `generic_invoice_parse`.) -/
def generic_invoice_parse (text fname : List Char) : List Row :=
  [genericRow text fname]

/-! ## Vendor detection and the dispatcher core -/

/-- The FedEx structural anchors of `looks_like_fedex`. -/
def fedexAnchors : List String :=
  ["tracking id", "fedex express shipment", "fedex express ship",
   "ship date:", "transportation charge", "total transportation charges",
   "fedex other charges", "earned discount", "fuel surcharge",
   "invoice summary", "total this invoice"]

/-- `looks_like_fedex`. -/
def looks_like_fedex (t : List Char) : Bool :=
  if t.isEmpty then false
  else
    let lt := lowerL t
    if !containsSub lt "fedex".toList then false
    else fedexAnchors.any (fun a => containsSub lt a.toList)

/-- The Lightning brand phrases of `looks_like_lightning`. -/
def lightningBrand : List String :=
  ["lightning messenger express", "www.lightningmessengerexpress.com",
   "payment due upon receipt"]

/-- The Lightning structural anchors of `looks_like_lightning`. -/
def lightningStructure : List String :=
  ["summary - billing reference 1", "billing reference 1", "order total:",
   "totals: billing reference 1", "customer number", "invoice number",
   "invoice period"]

/-- `looks_like_lightning`: brand, or at least two structural anchors. -/
def looks_like_lightning (t : List Char) : Bool :=
  if t.isEmpty then false
  else
    let lt := lowerL t
    let brand := lightningBrand.any (fun h => containsSub lt h.toList)
    let hits := (lightningStructure.filter (fun a => containsSub lt a.toList)).length
    brand || decide (2 ≤ hits)

/-- The pure dispatch core of `process_file_auto` (after file reading,
which is outside the parsing core): FedEx detector first, then
Lightning, else both parsers speculatively keeping the longer result
(ties to Lightning when nonempty), else the generic parser.  The
source's lines 792–795 repeat 786–789 verbatim on an unreachable path
and collapse to the same result. -/
def process_file_core (cmap : List (List Char × List Char))
    (txt fname : List Char) : List Row :=
  if looks_like_fedex txt then fedParse cmap txt fname
  else if looks_like_lightning txt then lightParse cmap txt fname
  else
    let fedex_rows := fedParse cmap txt fname
    let lightning_rows := lightParse cmap txt fname
    if fedex_rows.length ≤ lightning_rows.length ∧ 0 < lightning_rows.length then
      lightning_rows
    else if 0 < fedex_rows.length then fedex_rows
    else generic_invoice_parse txt fname

/-! ## `normalize_text` -/

/-- `str.replace(c, rep)` for a one-character needle. -/
def replChar (c : Char) (rep : List Char) (s : List Char) : List Char :=
  (s.map (fun x => if x == c then rep else [x])).flatten

/-- `[\t ]+`. -/
def N_TABSP : RE := RE.rep 1 none true tabSpaceC

/-- `Total\s*Transportation\s*Charges` with `re.I`. -/
def N_TTC : RE :=
  seqL [sliti "Total", wsStar, sliti "Transportation", wsStar, sliti "Charges"]

/-- `Total\s*Charge` with `re.I`. -/
def N_TC : RE := seqL [sliti "Total", wsStar, sliti "Charge"]

/-- `Totals:\s*Billing\s*Reference\s*1\s*[–\-]\s*` with `re.I`. -/
def N_TBR_DASH : RE :=
  seqL [sliti "Totals:", wsStar, sliti "Billing", wsStar, sliti "Reference",
    wsStar, RE.cls (litC '1'), wsStar, RE.cls dashEnC, wsStar]

/-- `summary\s*[-–—]?\s*billing\s*reference\s*1` with `re.I`. -/
def N_SUMMARY : RE :=
  seqL [sliti "summary", wsStar, rep01 dashAllC, wsStar, sliti "billing",
    wsStar, sliti "reference", wsStar, RE.cls (litC '1')]

/-- `totals?:\s*billing\s*reference\s*1` with `re.I`. -/
def N_TOTALS : RE :=
  seqL [sliti "total", rep01 (ciC 's'), RE.cls (litC ':'), wsStar,
    sliti "billing", wsStar, sliti "reference", wsStar, RE.cls (litC '1')]

/-- `order\s*total\s*:` with `re.I`. -/
def N_ORDER_TOTAL : RE :=
  seqL [sliti "order", wsStar, sliti "total", wsStar, RE.cls (litC ':')]

/-- `billing\s*reference\s*1` with `re.I`. -/
def N_BR1 : RE :=
  seqL [sliti "billing", wsStar, sliti "reference", wsStar, RE.cls (litC '1')]

/-- `customer\s*number` with `re.I`. -/
def N_CUSTNUM : RE := seqL [sliti "customer", wsStar, sliti "number"]

/-- `invoice\s*number` with `re.I`. -/
def N_INVNUM : RE := seqL [sliti "invoice", wsStar, sliti "number"]

/-- `invoice\s*period` with `re.I`. -/
def N_INVPER : RE := seqL [sliti "invoice", wsStar, sliti "period"]

/-- `normalize_text` of the source: the character replacements, then the
eleven `re.sub` passes, in source order. -/
def normalize_text (t : List Char) : List Char :=
  if t.isEmpty then []
  else
    let t := replChar '\u00A0' [' '] t
    let t := replChar '\u200B' [' '] t
    let t := replChar '\uFB01' "fi".toList t
    let t := subAllIn N_TABSP " ".toList t
    let t := subAllIn N_TTC "Total Charge".toList t
    let t := subAllIn N_TC "Total Charge".toList t
    let t := subAllIn N_TBR_DASH "Totals: Billing Reference 1 - ".toList t
    let t := subAllIn N_SUMMARY "Summary - Billing Reference 1".toList t
    let t := subAllIn N_TOTALS "Totals: Billing Reference 1".toList t
    let t := subAllIn N_ORDER_TOTAL "Order Total:".toList t
    let t := subAllIn N_BR1 "Billing Reference 1".toList t
    let t := subAllIn N_CUSTNUM "Customer Number".toList t
    let t := subAllIn N_INVNUM "Invoice Number".toList t
    subAllIn N_INVPER "Invoice Period".toList t

/-! ## Row observations -/

/-- Look a field up in a row (`row[key]`). -/
def rowGet (r : Row) (k : String) : Option Val :=
  (r.find? (fun kv => kv.1 == k)).map (fun kv => kv.2)

/-- The 13 unified-schema field names, in output order. -/
def K13 : List String :=
  ["InvoiceFileName", "Vendor", "InvoiceID", "InvoiceDate", "DueDate",
   "Description", "Quantity", "UnitPrice", "Amount", "Currency",
   "FedEx_Sender", "FedEx_CustRef", "PrimaryClientCode"]

/-- The field names of a row, in order. -/
def rowKeys (r : Row) : List String := r.map Prod.fst

/-- A numeric (`float`) amount, as opposed to the empty string. -/
def isNumV : Option Val → Bool
  | some (Val.vq _) => true
  | _ => false

/-! ## Invariants of the FedEx block loop -/

/-- Rows of `FedExParser.parse` with `Description = "FedEx"` carry a
numeric amount. -/
def c1Ok (r : Row) : Bool :=
  (rowGet r "Description" != some (Val.vs "FedEx".toList)) ||
    isNumV (rowGet r "Amount")

theorem c1Ok_emit (ctx : FedCtx) (a b c : Option (List Char)) (q : ℚ) :
    c1Ok (emit_row ctx a b c (some q)) = true := rfl

theorem c1Ok_other (ctx : FedCtx) (oc : ℚ) (t : List Char) :
    c1Ok (otherChargesRow ctx oc t) = true := rfl

theorem fedFresh_rows_all (P : Row → Bool)
    (hemit : ∀ ctx a b c q, P (emit_row ctx a b c (some q)) = true)
    (ctx : FedCtx) (st : FedSt) (f : Blk) (h : st.rows.all P = true) :
    (fedFresh ctx st f).rows.all P = true := by
  unfold fedFresh
  cases hft : f.total with
  | some q => simp [hft, List.all_append, h, hemit]
  | none =>
    simp only [hft, Option.isSome_none, Bool.false_eq_true, if_false]
    split <;> simpa using h

theorem fedStep_rows_all (P : Row → Bool)
    (hemit : ∀ ctx a b c q, P (emit_row ctx a b c (some q)) = true)
    (ctx : FedCtx) (st : FedSt) (f : Blk) (h : st.rows.all P = true) :
    (fedStep ctx st f).rows.all P = true := by
  cases hp : st.pending with
  | none =>
    have he : fedStep ctx st f = fedFresh ctx st f := by simp [fedStep, hp]
    rw [he]; exact fedFresh_rows_all P hemit ctx st f h
  | some p =>
    cases hft : f.total with
    | some q =>
      simp only [fedStep, hp, hft]
      split
      · simp [List.all_append, hemit]; simpa using h
      · split
        · simpa using h
        · exact fedFresh_rows_all P hemit ctx _ f h
    | none =>
      simp only [fedStep, hp, hft, Option.isSome_none, Bool.false_and,
        Bool.false_eq_true, if_false]
      split
      · simpa using h
      · exact fedFresh_rows_all P hemit ctx _ f h

theorem fedFold_rows_all (P : Row → Bool)
    (hemit : ∀ ctx a b c q, P (emit_row ctx a b c (some q)) = true)
    (ctx : FedCtx) (bs : List Blk) (st : FedSt) (h : st.rows.all P = true) :
    ((bs.foldl (fedStep ctx) st).rows).all P = true := by
  induction bs generalizing st with
  | nil => simpa using h
  | cons b bs ih =>
    exact ih (fedStep ctx st b) (fedStep_rows_all P hemit ctx st b h)

theorem fedParse_rows_all (P : Row → Bool)
    (hemit : ∀ ctx a b c q, P (emit_row ctx a b c (some q)) = true)
    (hother : ∀ ctx oc t, P (otherChargesRow ctx oc t) = true)
    (cmap : List (List Char × List Char)) (text fname : List Char) :
    (fedParse cmap text fname).all P = true := by
  unfold fedParse fedFold
  have h1 := fedFold_rows_all P hemit (fedCtxOf cmap text fname)
    ((iter_ship_blocks text).map fedFields) ⟨[], none⟩ rfl
  cases hoc : parse_other_charges text with
  | some oc =>
    simp only [hoc, List.all_append, Bool.and_eq_true]
    refine ⟨h1, ?_⟩
    simp [hother]
  | none => simpa only [hoc] using h1

/-- **C1.**  For every input text, file name and client map, every
shipment row emitted by `FedExParser.parse` (a row with `Description`
`"FedEx"`, as opposed to the aggregate other-charges row) has a numeric
(non-empty) `Amount`: both `emit_row` call sites of the merge loop are
guarded by `total_amt is not None`. -/
theorem fedex_ship_rows_have_resolved_amount
    (cmap : List (List Char × List Char)) (text fname : List Char) :
    (fedParse cmap text fname).all c1Ok = true :=
  fedParse_rows_all c1Ok c1Ok_emit c1Ok_other cmap text fname

/-! ## The fixed 13-field row schema -/

/-- A row has exactly the 13 unified-schema fields, in order. -/
def ok6 (r : Row) : Bool := rowKeys r == K13

theorem ok6_emit (ctx : FedCtx) (a b c : Option (List Char)) (t : Option ℚ) :
    ok6 (emit_row ctx a b c t) = true := rfl

theorem ok6_other (ctx : FedCtx) (oc : ℚ) (t : List Char) :
    ok6 (otherChargesRow ctx oc t) = true := rfl

theorem ok6_lightRow (cmap : List (List Char × List Char))
    (hdr : List Char × List Char) (totals : List (List Char × ℚ))
    (text fname ref : List Char) (a b : Nat) :
    ok6 (lightRow cmap hdr totals text fname ref a b) = true := rfl

theorem lightParse_rows_all (P : Row → Bool)
    (hrow : ∀ cmap hdr totals text fname ref a b,
      P (lightRow cmap hdr totals text fname ref a b) = true)
    (cmap : List (List Char × List Char)) (text fname : List Char) :
    (lightParse cmap text fname).all P = true := by
  unfold lightParse
  cases hr : (findAllIn REF_START_RX text).map (fun r => (grpGet r.2.2 1, r.1)) with
  | nil => rfl
  | cons a l =>
    rw [List.all_eq_true]
    intro x hx
    obtain ⟨rse, _, hmap⟩ := List.mem_map.mp hx
    exact hmap ▸ hrow cmap _ _ text fname rse.1 rse.2.1 rse.2.2

theorem rowKeys_dictSet_mem (k : String) (v : Val) (r : Row)
    (h : r.any (fun kv => kv.1 == k) = true) :
    rowKeys (dictSet k v r) = rowKeys r := by
  unfold dictSet rowKeys
  rw [if_pos h, List.map_map]
  apply List.map_congr_left
  intro kv _
  simp only [Function.comp_apply]
  split
  · next hkv => exact (eq_of_beq hkv).symm
  · rfl

theorem rowKeys_dictSet_of_keys (k : String) (v : Val) (r : Row)
    (h : rowKeys r = K13) (hmem : k ∈ K13) :
    rowKeys (dictSet k v r) = K13 := by
  have hany : r.any (fun kv => kv.1 == k) = true := by
    have : (rowKeys r).any (fun x => x == k) = true := by
      rw [h, List.any_eq_true]
      exact ⟨k, hmem, beq_self_eq_true k⟩
    simpa [rowKeys, List.any_map, Function.comp] using this
  rw [rowKeys_dictSet_mem k v r hany, h]

theorem rowKeys_genericRow (text fname : List Char) :
    rowKeys (genericRow text fname) = K13 := by
  unfold genericRow
  dsimp only
  repeat' split
  all_goals
    repeat
      first
      | refine rowKeys_dictSet_of_keys _ _ _ ?_ (by decide)
      | split
      | exact rfl

/-- **C6.**  Every row produced by any of the three parsers
(`FedExParser.parse`, `LightningParser.parse`, `generic_invoice_parser`)
carries exactly the 13 fixed unified-schema fields, in order; a field
with no extracted value is present (empty), never omitted. -/
theorem rows_have_fixed_13_field_schema
    (cmap : List (List Char × List Char)) (text fname : List Char) :
    (fedParse cmap text fname).all ok6 = true ∧
    (lightParse cmap text fname).all ok6 = true ∧
    (generic_invoice_parse text fname).all ok6 = true := by
  refine ⟨fedParse_rows_all ok6 (fun ctx a b c q => ok6_emit ctx a b c (some q))
      ok6_other cmap text fname,
    lightParse_rows_all ok6 ok6_lightRow cmap text fname, ?_⟩
  have h := rowKeys_genericRow text fname
  simp [generic_invoice_parse, ok6, h]

/-! ## Block segmentation (C4) -/

theorem sl_glue (t : List Char) (a b : Nat) (hab : a ≤ b) :
    sl t a b ++ t.drop b = t.drop a := by
  unfold sl
  have hb : b = a + (b - a) := by omega
  rw [hb, Nat.add_sub_cancel_left, List.drop_take_append_drop]

theorem pairBlocks_length (t : List Char) :
    ∀ l : List Nat, (pairBlocks t l).length = l.length
  | [] => rfl
  | [_] => rfl
  | a :: b :: r => by
    simp only [pairBlocks, List.length_cons]
    rw [pairBlocks_length t (b :: r)]
    simp

theorem pairBlocks_flatten (t : List Char) :
    ∀ l : List Nat, List.Chain' (· ≤ ·) l → (∀ x ∈ l, x ≤ t.length) →
      (pairBlocks t l).flatten =
        (match l with | [] => ([] : List Char) | a :: _ => t.drop a)
  | [], _, _ => rfl
  | [a], _, hb => by
    have ha : a ≤ t.length := hb a (by simp)
    simp only [pairBlocks, List.flatten, sl, List.append_nil]
    rw [List.take_of_length_le (by rw [List.length_drop])]
  | a :: b :: r, hc, hb => by
    obtain ⟨hab, hc2⟩ := List.chain'_cons.mp hc
    have ih := pairBlocks_flatten t (b :: r) hc2
      (fun x hx => hb x (List.mem_cons_of_mem a hx))
    simp only [pairBlocks, List.flatten_cons]
    rw [ih]
    exact sl_glue t a b hab

theorem occAux_mem_bounds (needle : List Char) :
    ∀ (fuel : Nat) (s : List Char) (pos : Nat),
      ∀ x ∈ occAux needle fuel s pos, pos ≤ x ∧ x ≤ pos + s.length := by
  intro fuel
  induction fuel with
  | zero => intro s pos x hx; simp [occAux] at hx
  | succ n ih =>
    intro s pos x hx
    match s with
    | [] => simp [occAux] at hx
    | c :: t =>
      rw [occAux] at hx
      by_cases hp : needle.isPrefixOf (c :: t)
      · rw [if_pos hp] at hx
        have hlen : needle.length ≤ (c :: t).length :=
          (List.isPrefixOf_iff_prefix.mp hp).length_le
        rcases List.mem_cons.mp hx with h | h
        · subst h
          exact ⟨Nat.le_refl _, Nat.le_add_right _ _⟩
        · have hih := ih _ _ x h
          have hd : ((c :: t).drop needle.length).length =
              (c :: t).length - needle.length := List.length_drop ..
          omega
      · rw [if_neg hp] at hx
        have := ih t (pos + 1) x hx
        simp only [List.length_cons]
        omega

theorem occAux_chain (needle : List Char) :
    ∀ (fuel : Nat) (s : List Char) (pos : Nat),
      List.Chain' (· ≤ ·) (occAux needle fuel s pos) := by
  intro fuel
  induction fuel with
  | zero => intro s pos; simp [occAux]
  | succ n ih =>
    intro s pos
    match s with
    | [] => simp [occAux]
    | c :: t =>
      rw [occAux]
      by_cases hp : needle.isPrefixOf (c :: t)
      · rw [if_pos hp]
        refine List.chain'_cons'.mpr ⟨?_, ih _ _⟩
        intro y hy
        have hm : y ∈ occAux needle n ((c :: t).drop needle.length)
            (pos + needle.length) := List.mem_of_mem_head? hy
        have := occAux_mem_bounds needle n _ _ y hm
        omega
      · rw [if_neg hp]; exact ih t (pos + 1)

/-- **C4 (counterexample).**  With a single `Ship Date:` occurrence at
position 0, `iter_ship_blocks` yields one block equal to the whole text:
the trailer text `" A TRAILER"` after the occurrence is *inside* the
yielded block, not discarded — `starts.append(len(text))` makes the last
block run to the end of the document. -/
theorem iter_ship_blocks_keeps_trailer_cex :
    occList shipLabel ("Ship Date: A TRAILER".toList) = [0] ∧
    iter_ship_blocks ("Ship Date: A TRAILER".toList) =
      ["Ship Date: A TRAILER".toList] := by
  constructor <;> rfl

/-- **C4 (amended).**  `iter_ship_blocks` yields one block per
occurrence of `"Ship Date:"`, and the blocks concatenate to the text
from the *first* occurrence through the *end of the document*: only the
prefix before the first occurrence is discarded; the tail after the last
occurrence belongs to the final block. -/
theorem iter_ship_blocks_covers_to_end (t : List Char) (s0 : Nat)
    (rest : List Nat) (h : occList shipLabel t = s0 :: rest) :
    (iter_ship_blocks t).length = (s0 :: rest).length ∧
    (iter_ship_blocks t).flatten = t.drop s0 := by
  have hch : List.Chain' (· ≤ ·) (s0 :: rest) := by
    rw [← h]; exact occAux_chain shipLabel _ _ _
  have hbd : ∀ x ∈ s0 :: rest, x ≤ t.length := by
    rw [← h]
    intro x hx
    have := occAux_mem_bounds shipLabel (t.length + 1) t 0 x hx
    omega
  unfold iter_ship_blocks
  rw [h]
  exact ⟨pairBlocks_length t _, pairBlocks_flatten t (s0 :: rest) hch hbd⟩

/-! ## The client code resolver (C7) -/

/-- `l.isEmpty = false` from `l ≠ []`. -/
theorem isEmpty_false_of_ne {α : Type} {l : List α} (h : l ≠ []) : l.isEmpty = false := by
  cases l with
  | nil => exact absurd rfl h
  | cons a r => rfl


theorem lookupA_eq_of_mem_nodup (k v : List Char)
    (m : List (List Char × List Char)) (hn : (m.map Prod.fst).Nodup)
    (hm : (k, v) ∈ m) : lookupA k m = some v := by
  induction m with
  | nil => cases hm
  | cons kv r ih =>
    rcases List.mem_cons.mp hm with h | h
    · subst h
      simp [lookupA, List.find?]
    · have hn2 : kv.1 ∉ r.map Prod.fst ∧ (r.map Prod.fst).Nodup := by
        rw [List.map_cons, List.nodup_cons] at hn
        exact hn
      have hne : kv.1 ≠ k := by
        intro he
        exact hn2.1 (he ▸ List.mem_map_of_mem Prod.fst h)
      have hb : (kv.1 == k) = false := beq_eq_false_iff_ne.mpr hne
      simp only [lookupA, List.find?, hb]
      exact ih hn2.2 h

/-- **C7.**  `map_primary_from_custref` resolves in three tiers — exact
dict lookup on the cleaned reference, first case-insensitive key match,
first case-insensitive substring match (a key occurring inside the
reference; empty keys skipped) — the first matching tier winning, and
returns the empty string when the mapping is empty or no tier matches.
The tier conclusions are stated semantically: a reference equal to a key
(tier 1, under a dict's distinct keys), equal to a key up to case
(tier 2), or containing a key (tier 3, all matching entries sharing the
code, as the first match wins) resolves to that key's code. -/
theorem map_primary_three_tier_resolution
    (m : List (List Char × List Char)) (cust : List Char) :
    (map_primary_from_custref cust [] = []) ∧
    (∀ v, cust ≠ [] → (m.map Prod.fst).Nodup → (soft_clean cust, v) ∈ m →
      map_primary_from_custref cust m = v) ∧
    (∀ k v, cust ≠ [] → (k, v) ∈ m →
      lowerL k = lowerL (soft_clean cust) →
      (∀ kv ∈ m, kv.1 ≠ soft_clean cust) →
      (∀ kv ∈ m, lowerL kv.1 = lowerL (soft_clean cust) → kv.2 = v) →
      map_primary_from_custref cust m = v) ∧
    (∀ k v, cust ≠ [] → (k, v) ∈ m → k ≠ [] →
      containsSub (lowerL (soft_clean cust)) (lowerL k) = true →
      (∀ kv ∈ m, kv.1 ≠ soft_clean cust) →
      (∀ kv ∈ m, lowerL kv.1 ≠ lowerL (soft_clean cust)) →
      (∀ kv ∈ m, kv.1 ≠ [] →
        containsSub (lowerL (soft_clean cust)) (lowerL kv.1) = true → kv.2 = v) →
      map_primary_from_custref cust m = v) ∧
    ((∀ kv ∈ m, kv.1 ≠ soft_clean cust ∧
        lowerL kv.1 ≠ lowerL (soft_clean cust) ∧
        (kv.1 ≠ [] →
          containsSub (lowerL (soft_clean cust)) (lowerL kv.1) = false)) →
      map_primary_from_custref cust m = []) := by
  refine ⟨by simp [map_primary_from_custref], ?_, ?_, ?_, ?_⟩
  · intro v hc hn hm
    have hg : (cust.isEmpty || m.isEmpty) = false := by
      rw [isEmpty_false_of_ne hc, isEmpty_false_of_ne (List.ne_nil_of_mem hm)]
      rfl
    unfold map_primary_from_custref
    rw [if_neg (by simp [hg] : ¬(cust.isEmpty || m.isEmpty) = true)]
    dsimp only
    rw [lookupA_eq_of_mem_nodup _ v m hn hm]
  · intro k v hc hm hlow hnoexact hall
    have hg : (cust.isEmpty || m.isEmpty) = false := by
      rw [isEmpty_false_of_ne hc, isEmpty_false_of_ne (List.ne_nil_of_mem hm)]
      rfl
    have h1 : lookupA (soft_clean cust) m = none := by
      unfold lookupA
      rw [List.find?_eq_none.mpr]
      · rfl
      · intro kv hkv
        exact fun hb => hnoexact kv hkv (eq_of_beq hb)
    have h2 :
        (m.find? (fun kv => lowerL (soft_clean cust) == lowerL kv.1)).isSome := by
      rw [List.find?_isSome]
      exact ⟨(k, v), hm, by simp [hlow]⟩
    obtain ⟨kv0, hkv0⟩ := Option.isSome_iff_exists.mp h2
    have hkv0m := List.mem_of_find?_eq_some hkv0
    have hkv0p := List.find?_some hkv0
    have hv : kv0.2 = v :=
      hall kv0 hkv0m (eq_of_beq hkv0p).symm
    unfold map_primary_from_custref
    rw [if_neg (by simp [hg] : ¬(cust.isEmpty || m.isEmpty) = true)]
    simp only [h1, hkv0]
    exact hv
  · intro k v hc hm hk hsub hnoexact hnoci hall
    have hg : (cust.isEmpty || m.isEmpty) = false := by
      rw [isEmpty_false_of_ne hc, isEmpty_false_of_ne (List.ne_nil_of_mem hm)]
      rfl
    have h1 : lookupA (soft_clean cust) m = none := by
      unfold lookupA
      rw [List.find?_eq_none.mpr]
      · rfl
      · intro kv hkv
        exact fun hb => hnoexact kv hkv (eq_of_beq hb)
    have h2 : m.find? (fun kv => lowerL (soft_clean cust) == lowerL kv.1) =
        none := by
      rw [List.find?_eq_none]
      intro kv hkv
      exact fun hb => hnoci kv hkv (eq_of_beq hb).symm
    have h3 : (m.find? (fun kv => !kv.1.isEmpty &&
        containsSub (lowerL (soft_clean cust)) (lowerL kv.1))).isSome := by
      rw [List.find?_isSome]
      exact ⟨(k, v), hm, by simp [isEmpty_false_of_ne hk, hsub]⟩
    obtain ⟨kv0, hkv0⟩ := Option.isSome_iff_exists.mp h3
    have hkv0m := List.mem_of_find?_eq_some hkv0
    have hkv0p := List.find?_some hkv0
    rw [Bool.and_eq_true] at hkv0p
    have hkne : kv0.1 ≠ [] := by
      intro he
      rw [he] at hkv0p
      simpa using hkv0p.1
    have hv : kv0.2 = v := hall kv0 hkv0m hkne hkv0p.2
    unfold map_primary_from_custref
    rw [if_neg (by simp [hg] : ¬(cust.isEmpty || m.isEmpty) = true)]
    simp only [h1, h2, hkv0]
    exact hv
  · intro hall
    by_cases hg : (cust.isEmpty || m.isEmpty) = true
    · unfold map_primary_from_custref
      rw [if_pos hg]
    · have h1 : lookupA (soft_clean cust) m = none := by
        unfold lookupA
        rw [List.find?_eq_none.mpr]
        · rfl
        · intro kv hkv
          exact fun hb => (hall kv hkv).1 (eq_of_beq hb)
      have h2 : m.find? (fun kv => lowerL (soft_clean cust) == lowerL kv.1) =
          none := by
        rw [List.find?_eq_none]
        intro kv hkv
        exact fun hb => (hall kv hkv).2.1 (eq_of_beq hb).symm
      have h3 : m.find? (fun kv => !kv.1.isEmpty &&
          containsSub (lowerL (soft_clean cust)) (lowerL kv.1)) = none := by
        rw [List.find?_eq_none]
        intro kv hkv
        by_cases hke : kv.1 = []
        · simp [hke]
        · simp [isEmpty_false_of_ne hke, (hall kv hkv).2.2 hke]
      unfold map_primary_from_custref
      rw [if_neg hg]
      simp only [h1, h2, h3]

/-- A concrete client map for the resolver scenarios. -/
def c7map : List (List Char × List Char) :=
  [("ACME".toList, "A1".toList), ("Beta Co".toList, "B2".toList)]

theorem map_primary_three_tier_witness :
    map_primary_from_custref "zz".toList [] = [] ∧
    map_primary_from_custref "ACME".toList c7map = "A1".toList ∧
    map_primary_from_custref " acme ".toList c7map = "A1".toList ∧
    map_primary_from_custref "xx beta co yy".toList c7map = "B2".toList ∧
    map_primary_from_custref "nope".toList c7map = [] :=
  ⟨(map_primary_three_tier_resolution c7map "zz".toList).1,
   (map_primary_three_tier_resolution c7map "ACME".toList).2.1 "A1".toList
     (by decide) (by decide) (by decide),
   (map_primary_three_tier_resolution c7map " acme ".toList).2.2.1
     "ACME".toList "A1".toList (by decide) (by decide) (by decide) (by decide)
     (by decide),
   (map_primary_three_tier_resolution c7map "xx beta co yy".toList).2.2.2.1
     "Beta Co".toList "B2".toList (by decide) (by decide) (by decide)
     (by decide) (by decide) (by decide) (by decide),
   (map_primary_three_tier_resolution c7map "nope".toList).2.2.2.2
     (by decide)⟩

/-! ## The generic fallback and the dispatcher (C5) -/

/-- Overwriting key `k` in place does not change a `find?` for a
different key `k2`. -/
theorem find?_overwrite (k k2 : String) (v : Val) (h : (k == k2) = false) :
    ∀ r : Row, (r.map (fun kv => if kv.1 == k then (k, v) else kv)).find?
        (fun kv => kv.1 == k2) = r.find? (fun kv => kv.1 == k2)
  | [] => rfl
  | kv :: rest => by
    rw [List.map_cons]
    by_cases hkv : (kv.1 == k) = true
    · have hpkv : (kv.1 == k2) = false := by rw [eq_of_beq hkv]; exact h
      rw [if_pos hkv,
        @List.find?_cons_of_neg _ (fun kv => kv.1 == k2) (k, v) _ (by simp [h]),
        @List.find?_cons_of_neg _ (fun kv => kv.1 == k2) kv _ (by simp [hpkv])]
      exact find?_overwrite k k2 v h rest
    · rw [if_neg hkv]
      cases hp : (kv.1 == k2) with
      | true =>
        rw [@List.find?_cons_of_pos _ (fun kv => kv.1 == k2) kv _ hp,
          @List.find?_cons_of_pos _ (fun kv => kv.1 == k2) kv _ hp]
      | false =>
        rw [@List.find?_cons_of_neg _ (fun kv => kv.1 == k2) kv _ (by simp [hp]),
          @List.find?_cons_of_neg _ (fun kv => kv.1 == k2) kv _ (by simp [hp])]
        exact find?_overwrite k k2 v h rest

/-- Appending an entry for key `k` does not change a `find?` for a
different key `k2`. -/
theorem find?_append_single (k k2 : String) (v : Val) (h : (k == k2) = false) :
    ∀ r : Row, (r ++ [(k, v)]).find? (fun kv => kv.1 == k2) =
      r.find? (fun kv => kv.1 == k2)
  | [] => by simp [List.find?, h]
  | kv :: rest => by
    rw [List.cons_append]
    cases hp : (kv.1 == k2) with
    | true =>
      rw [@List.find?_cons_of_pos _ (fun kv => kv.1 == k2) kv _ hp,
        @List.find?_cons_of_pos _ (fun kv => kv.1 == k2) kv _ hp]
    | false =>
      rw [@List.find?_cons_of_neg _ (fun kv => kv.1 == k2) kv _ (by simp [hp]),
        @List.find?_cons_of_neg _ (fun kv => kv.1 == k2) kv _ (by simp [hp])]
      exact find?_append_single k k2 v h rest

/-- A `dictSet` on one key leaves every other key's value unchanged. -/
theorem rowGet_dictSet_ne (k k2 : String) (v : Val) (r : Row)
    (h : (k == k2) = false) : rowGet (dictSet k v r) k2 = rowGet r k2 := by
  unfold dictSet rowGet
  split
  · rw [find?_overwrite k k2 v h r]
  · rw [find?_append_single k k2 v h r]

/-- The FedEx descriptions: `"FedEx"` or `"FedEx Other Charges"`. -/
def fedDescOk (r : Row) : Bool :=
  (rowGet r "Description" == some (Val.vs "FedEx".toList)) ||
    (rowGet r "Description" == some (Val.vs "FedEx Other Charges".toList))

/-- The Lightning description: `"Lightning Messenger"`. -/
def lightDescOk (r : Row) : Bool :=
  rowGet r "Description" == some (Val.vs "Lightning Messenger".toList)

theorem fedParse_desc (cmap : List (List Char × List Char))
    (text fname : List Char) : (fedParse cmap text fname).all fedDescOk = true :=
  fedParse_rows_all fedDescOk (fun _ _ _ _ _ => rfl) (fun _ _ _ => rfl)
    cmap text fname

theorem lightParse_desc (cmap : List (List Char × List Char))
    (text fname : List Char) :
    (lightParse cmap text fname).all lightDescOk = true :=
  lightParse_rows_all lightDescOk (fun _ _ _ _ _ _ _ _ => rfl) cmap text fname

theorem rowGet_genericRow_desc (text fname : List Char) :
    rowGet (genericRow text fname) "Description" =
      some (.vs "Generic Invoice".toList) := by
  unfold genericRow
  dsimp only
  repeat' split
  all_goals
    repeat
      first
      | rw [rowGet_dictSet_ne _ _ _ _ (by decide)]
      | split
      | exact rfl

/-- If a list equal to the one-row generic result satisfied a row
predicate everywhere, the generic row satisfies it. -/
theorem all_of_eq_generic (rs : List Row) (text fname : List Char)
    (P : Row → Bool) (hall : rs.all P = true)
    (heq : rs = generic_invoice_parse text fname) :
    P (genericRow text fname) = true := by
  rw [heq] at hall
  simpa [generic_invoice_parse] using hall

theorem fedDescOk_genericRow_false (text fname : List Char) :
    fedDescOk (genericRow text fname) = false := by
  unfold fedDescOk
  rw [rowGet_genericRow_desc]
  decide

theorem lightDescOk_genericRow_false (text fname : List Char) :
    lightDescOk (genericRow text fname) = false := by
  unfold lightDescOk
  rw [rowGet_genericRow_desc]
  decide

set_option maxRecDepth 8000 in
set_option maxHeartbeats 2000000 in
/-- **C5 (counterexample).**  On `"fedex tracking id"` the FedEx
detector fires, `FedExParser.parse` yields zero rows, so the dispatcher
returns the empty list — although *both* carrier parsers produce zero
rows and the generic parser would return its one row.  The generic
result is therefore *not* returned exactly when both carrier parsers
produce zero rows. -/
theorem dispatcher_skips_generic_cex :
    looks_like_fedex ("fedex tracking id".toList) = true ∧
    fedParse [] ("fedex tracking id".toList) "f.pdf".toList = [] ∧
    lightParse [] ("fedex tracking id".toList) "f.pdf".toList = [] ∧
    process_file_core [] ("fedex tracking id".toList) "f.pdf".toList = [] ∧
    generic_invoice_parse ("fedex tracking id".toList) "f.pdf".toList ≠ [] := by
  refine ⟨by decide, by decide, by decide, ?_, by simp [generic_invoice_parse]⟩
  have h : process_file_core [] ("fedex tracking id".toList) "f.pdf".toList =
      fedParse [] ("fedex tracking id".toList) "f.pdf".toList := by
    unfold process_file_core
    rw [if_pos (by decide : looks_like_fedex ("fedex tracking id".toList) = true)]
  rw [h]
  decide

/-- **C5 (amended).**  `generic_invoice_parser` always returns exactly
one row, with unmatched fields empty: the never-assigned fields are
always empty, and each extracted field is empty whenever its pattern
search fails.  In the dispatcher, the generic result is returned exactly
when *neither* carrier detector matches *and* both carrier parsers
produce zero rows (when a detector matches, that carrier's — possibly
empty — result is returned unconditionally). -/
theorem generic_fallback_single_row_dispatch
    (cmap : List (List Char × List Char)) (text fname : List Char) :
    (generic_invoice_parse text fname).length = 1 ∧
    rowGet (genericRow text fname) "InvoiceFileName" = some (.vs fname) ∧
    rowGet (genericRow text fname) "Quantity" = some (.vs []) ∧
    rowGet (genericRow text fname) "UnitPrice" = some (.vs []) ∧
    rowGet (genericRow text fname) "FedEx_Sender" = some (.vs []) ∧
    rowGet (genericRow text fname) "FedEx_CustRef" = some (.vs []) ∧
    rowGet (genericRow text fname) "PrimaryClientCode" = some (.vs []) ∧
    (firstMatch gInvIdRxs text = none →
      rowGet (genericRow text fname) "InvoiceID" = some (.vs [])) ∧
    (firstMatch gDateRxs text = none →
      rowGet (genericRow text fname) "InvoiceDate" = some (.vs [])) ∧
    (firstMatch gAmtRxs text = none →
      rowGet (genericRow text fname) "Amount" = some (.vs [])) ∧
    (searchIn G_DUE_RX text = none →
      rowGet (genericRow text fname) "DueDate" = some (.vs [])) ∧
    (dedupeAux [] (vendorCandidates (neLines text)) = [] →
      ((neLines text).take 6).find? (fun l => (searchIn G_LEGAL_RX l).isSome) =
        none →
      rowGet (genericRow text fname) "Vendor" = some (.vs [])) ∧
    (searchIn G_CUR_RX text = none →
      rowGet (genericRow text fname) "Currency" = some (.vs [])) ∧
    (process_file_core cmap text fname = generic_invoice_parse text fname ↔
      (looks_like_fedex text = false ∧ looks_like_lightning text = false ∧
       fedParse cmap text fname = [] ∧ lightParse cmap text fname = [])) := by
  refine ⟨rfl, ?_, ?_, ?_, ?_, ?_, ?_, ?_, ?_, ?_, ?_, ?_, ?_, ?_⟩
  case _ => -- InvoiceFileName
    unfold genericRow
    dsimp only
    repeat' split
    all_goals
      repeat
        first
        | rw [rowGet_dictSet_ne _ _ _ _ (by decide)]
        | split
        | exact rfl
  case _ =>
    unfold genericRow
    dsimp only
    repeat' split
    all_goals
      repeat
        first
        | rw [rowGet_dictSet_ne _ _ _ _ (by decide)]
        | split
        | exact rfl
  case _ =>
    unfold genericRow
    dsimp only
    repeat' split
    all_goals
      repeat
        first
        | rw [rowGet_dictSet_ne _ _ _ _ (by decide)]
        | split
        | exact rfl
  case _ =>
    unfold genericRow
    dsimp only
    repeat' split
    all_goals
      repeat
        first
        | rw [rowGet_dictSet_ne _ _ _ _ (by decide)]
        | split
        | exact rfl
  case _ =>
    unfold genericRow
    dsimp only
    repeat' split
    all_goals
      repeat
        first
        | rw [rowGet_dictSet_ne _ _ _ _ (by decide)]
        | split
        | exact rfl
  case _ =>
    unfold genericRow
    dsimp only
    repeat' split
    all_goals
      repeat
        first
        | rw [rowGet_dictSet_ne _ _ _ _ (by decide)]
        | split
        | exact rfl
  case _ =>
    intro h
    unfold genericRow
    dsimp only
    rw [h]
    dsimp only
    repeat' split
    all_goals
      repeat
        first
        | rw [rowGet_dictSet_ne _ _ _ _ (by decide)]
        | split
        | exact rfl
  case _ =>
    intro h
    unfold genericRow
    dsimp only
    rw [h]
    dsimp only
    repeat' split
    all_goals
      repeat
        first
        | rw [rowGet_dictSet_ne _ _ _ _ (by decide)]
        | split
        | exact rfl
  case _ =>
    intro h
    unfold genericRow
    dsimp only
    rw [h]
    dsimp only
    repeat' split
    all_goals
      repeat
        first
        | rw [rowGet_dictSet_ne _ _ _ _ (by decide)]
        | split
        | exact rfl
  case _ =>
    intro h
    unfold genericRow
    dsimp only
    rw [h]
    dsimp only
    repeat' split
    all_goals
      repeat
        first
        | rw [rowGet_dictSet_ne _ _ _ _ (by decide)]
        | split
        | exact rfl
  case _ =>
    intro h1 h2
    unfold genericRow
    dsimp only
    rw [h1, h2]
    dsimp only
    repeat' split
    all_goals
      repeat
        first
        | rw [rowGet_dictSet_ne _ _ _ _ (by decide)]
        | split
        | exact rfl
  case _ =>
    intro h
    unfold genericRow
    dsimp only
    rw [h]
    dsimp only
    repeat' split
    all_goals
      repeat
        first
        | rw [rowGet_dictSet_ne _ _ _ _ (by decide)]
        | split
        | exact rfl
  case _ => -- the dispatcher biconditional
    constructor
    · intro heq
      cases hf : looks_like_fedex text with
      | true =>
        exfalso
        have hp : process_file_core cmap text fname = fedParse cmap text fname := by
          unfold process_file_core
          rw [if_pos hf]
        have hP := all_of_eq_generic (fedParse cmap text fname) text fname
          fedDescOk (fedParse_desc cmap text fname) (by rw [← hp, heq])
        rw [fedDescOk_genericRow_false] at hP
        exact Bool.false_ne_true hP
      | false =>
        cases hl : looks_like_lightning text with
        | true =>
          exfalso
          have hp : process_file_core cmap text fname =
              lightParse cmap text fname := by
            unfold process_file_core
            rw [if_neg (by simp [hf]), if_pos hl]
          have hP := all_of_eq_generic (lightParse cmap text fname) text fname
            lightDescOk (lightParse_desc cmap text fname) (by rw [← hp, heq])
          rw [lightDescOk_genericRow_false] at hP
          exact Bool.false_ne_true hP
        | false =>
          refine ⟨rfl, rfl, ?_⟩
          have hp : process_file_core cmap text fname =
              (if (fedParse cmap text fname).length ≤
                  (lightParse cmap text fname).length ∧
                  0 < (lightParse cmap text fname).length then
                lightParse cmap text fname
              else if 0 < (fedParse cmap text fname).length then
                fedParse cmap text fname
              else generic_invoice_parse text fname) := by
            unfold process_file_core
            rw [if_neg (by simp [hf]), if_neg (by simp [hl])]
          rw [hp] at heq
          by_cases h1 : (fedParse cmap text fname).length ≤
              (lightParse cmap text fname).length ∧
              0 < (lightParse cmap text fname).length
          · exfalso
            rw [if_pos h1] at heq
            have hP := all_of_eq_generic (lightParse cmap text fname) text fname
              lightDescOk (lightParse_desc cmap text fname) heq
            rw [lightDescOk_genericRow_false] at hP
            exact Bool.false_ne_true hP
          · rw [if_neg h1] at heq
            by_cases h2 : 0 < (fedParse cmap text fname).length
            · exfalso
              rw [if_pos h2] at heq
              have hP := all_of_eq_generic (fedParse cmap text fname) text fname
                fedDescOk (fedParse_desc cmap text fname) heq
              rw [fedDescOk_genericRow_false] at hP
              exact Bool.false_ne_true hP
            · have hfe : fedParse cmap text fname = [] :=
                List.eq_nil_of_length_eq_zero (by omega)
              have hle : lightParse cmap text fname = [] := by
                rcases Nat.eq_zero_or_pos (lightParse cmap text fname).length
                  with h0 | h0
                · exact List.eq_nil_of_length_eq_zero h0
                · exact absurd ⟨by omega, h0⟩ h1
              exact ⟨hfe, hle⟩
    · rintro ⟨hf, hl, hfe, hle⟩
      unfold process_file_core
      rw [if_neg (by simp [hf]), if_neg (by simp [hl])]
      rw [hfe, hle]
      rfl

/-- The counterexample text and file name, reused by the witness. -/
def c5text : List Char := "fedex tracking id".toList

def c5fname : List Char := "f.pdf".toList

set_option maxRecDepth 8000 in
set_option maxHeartbeats 4000000 in
theorem generic_fallback_dispatch_witness :
    rowGet (genericRow c5text c5fname) "InvoiceID" = some (.vs []) ∧
    rowGet (genericRow c5text c5fname) "InvoiceDate" = some (.vs []) ∧
    rowGet (genericRow c5text c5fname) "Amount" = some (.vs []) ∧
    rowGet (genericRow c5text c5fname) "DueDate" = some (.vs []) ∧
    rowGet (genericRow c5text c5fname) "Vendor" = some (.vs []) ∧
    rowGet (genericRow c5text c5fname) "Currency" = some (.vs []) :=
  ⟨(generic_fallback_single_row_dispatch [] c5text c5fname).2.2.2.2.2.2.2.1
     (by decide),
   (generic_fallback_single_row_dispatch [] c5text c5fname).2.2.2.2.2.2.2.2.1
     (by decide),
   (generic_fallback_single_row_dispatch [] c5text c5fname).2.2.2.2.2.2.2.2.2.1
     (by decide),
   (generic_fallback_single_row_dispatch []
     c5text c5fname).2.2.2.2.2.2.2.2.2.2.1 (by decide),
   (generic_fallback_single_row_dispatch []
     c5text c5fname).2.2.2.2.2.2.2.2.2.2.2.1 (by decide) (by decide),
   (generic_fallback_single_row_dispatch []
     c5text c5fname).2.2.2.2.2.2.2.2.2.2.2.2.1 (by decide)⟩

/-! ## `normalize_text` is not idempotent (C8) -/

set_option maxRecDepth 8000 in
set_option maxHeartbeats 4000000 in
/-- **C8 (code bug).**  `normalize_text` is *not* idempotent: on
`"total: billing reference 1 – x"` (with an en dash) the first pass
canonicalizes the label to `"Totals: Billing Reference 1 – x"` via the
`totals?:`-rule, but the dash-normalization rule (which runs *earlier*
in the pass and requires the canonical `"Totals:"` spelling) no longer
fires; the second pass then rewrites the en dash to `" - "`, so the
output changes again.  The spec states idempotence as a contract; the
rule ordering in the code breaks it. -/
theorem normalize_text_not_idempotent :
    normalize_text ("total: billing reference 1 – x".toList) =
      "Totals: Billing Reference 1 – x".toList ∧
    normalize_text ("Totals: Billing Reference 1 – x".toList) =
      "Totals: Billing Reference 1 - x".toList ∧
    normalize_text (normalize_text ("total: billing reference 1 – x".toList))
      ≠ normalize_text ("total: billing reference 1 – x".toList) := by
  have h1 : normalize_text ("total: billing reference 1 – x".toList) =
      "Totals: Billing Reference 1 – x".toList := by decide
  have h2 : normalize_text ("Totals: Billing Reference 1 – x".toList) =
      "Totals: Billing Reference 1 - x".toList := by decide
  refine ⟨h1, h2, ?_⟩
  rw [h1, h2]
  decide

/-! ## Lightning: no anchor, no rows (C10) -/

/-- **C10.**  When the billing-reference anchor
`Billing Reference 1 <7+ digits>` has no match in the text,
`LightningParser.parse` returns the empty list — no header-only or
partial row — whatever headers or totals lines the text contains. -/
theorem lightning_no_anchor_no_rows (cmap : List (List Char × List Char))
    (text fname : List Char) (h : findAllIn REF_START_RX text = []) :
    lightParse cmap text fname = [] := by
  unfold lightParse
  dsimp only
  rw [h]
  rfl

/-- A text with an invoice header and a totals line but no reference
anchor (the totals line's `1 - <ref>` does not match the anchor's
`1 <ref>` shape). -/
def c10text : List Char :=
  ("Invoice Number 12345 01/02/2024\n" ++
   "Totals: Billing Reference 1 - 3119952000 Total: $35.00\n").toList

set_option maxRecDepth 8000 in
set_option maxHeartbeats 2000000 in
theorem lightning_no_anchor_witness :
    lightParse [] c10text "l.pdf".toList = [] ∧
    (searchIn HDR_A c10text).isSome = true ∧
    totals_by_reference c10text ≠ [] :=
  ⟨lightning_no_anchor_no_rows [] c10text "l.pdf".toList (by decide),
   by decide, by decide⟩

/-! ## Lightning: reference block with no pass-1 total (C9) -/

/-- **C9.**  A reference block containing a date and an `Order ID`
whose reference has no entry in the pass-1 totals table still produces
exactly one row; its `Amount` is the empty value (not zero) while the
`InvoiceDate` (the block's first date, normalized) and the reference
field `FedEx_CustRef` are populated from the block. -/
theorem lightning_missing_total_empty_amount
    (cmap : List (List Char × List Char)) (text fname ref : List Char)
    (st : Nat) (mr mo : Nat × Nat × Grp)
    (hrefs : (findAllIn REF_START_RX text).map
      (fun r => (grpGet r.2.2 1, r.1)) = [(ref, st)])
    (hamt : lookupQ ref (totals_by_reference text) = none)
    (hdate : searchIn DATE_RX (sl text st text.length) = some mr)
    (_horder : searchIn ORDER_ID_FROM_LABEL (sl text st text.length) = some mo)
    (hne : try_parse_date (grpGet mr.2.2 1) ≠ []) :
    lightParse cmap text fname =
      [lightRow cmap (light_extract_header text) (totals_by_reference text)
        text fname ref st text.length] ∧
    rowGet (lightRow cmap (light_extract_header text)
      (totals_by_reference text) text fname ref st text.length) "Amount" =
      some (.vs []) ∧
    rowGet (lightRow cmap (light_extract_header text)
      (totals_by_reference text) text fname ref st text.length) "InvoiceDate" =
      some (.vs (try_parse_date (grpGet mr.2.2 1))) ∧
    rowGet (lightRow cmap (light_extract_header text)
      (totals_by_reference text) text fname ref st text.length)
      "FedEx_CustRef" = some (.vs ref) := by
  refine ⟨?_, ?_, ?_, rfl⟩
  · unfold lightParse
    dsimp only
    rw [hrefs]
    rfl
  · have hbase : rowGet (lightRow cmap (light_extract_header text)
        (totals_by_reference text) text fname ref st text.length) "Amount" =
        some (match lookupQ ref (totals_by_reference text) with
          | some q => Val.vq q
          | none => Val.vs []) := rfl
    rw [hbase, hamt]
  · have hbase : rowGet (lightRow cmap (light_extract_header text)
        (totals_by_reference text) text fname ref st text.length)
        "InvoiceDate" =
        some (.vs (pyOrS
          (match searchIn DATE_RX (sl text st text.length) with
            | some r => try_parse_date (grpGet r.2.2 1)
            | none => []) (light_extract_header text).2)) := rfl
    rw [hbase, hdate]
    simp only [pyOrS, isEmpty_false_of_ne hne, Bool.false_eq_true, if_false]

/-- A single-reference text with a date and an `Order ID` but no
`Totals:` line at all, so the pass-1 table has no entry for the
reference. -/
def c9text : List Char :=
  ("Billing Reference 1 3119952000\n" ++
   "01/02/2024 Order ID 58939 Marine 310-282-5973\n").toList

set_option maxRecDepth 8000 in
set_option maxHeartbeats 4000000 in
theorem lightning_missing_total_witness :
    lightParse [] c9text "l.pdf".toList =
      [lightRow [] (light_extract_header c9text)
        (totals_by_reference c9text) c9text "l.pdf".toList
        "3119952000".toList 0 c9text.length] ∧
    rowGet (lightRow [] (light_extract_header c9text)
      (totals_by_reference c9text) c9text "l.pdf".toList
      "3119952000".toList 0 c9text.length) "Amount" = some (.vs []) ∧
    rowGet (lightRow [] (light_extract_header c9text)
      (totals_by_reference c9text) c9text "l.pdf".toList
      "3119952000".toList 0 c9text.length) "InvoiceDate" =
      some (.vs (try_parse_date (grpGet (searchIn DATE_RX
        (sl c9text 0 c9text.length)).get!.2.2 1))) ∧
    rowGet (lightRow [] (light_extract_header c9text)
      (totals_by_reference c9text) c9text "l.pdf".toList
      "3119952000".toList 0 c9text.length) "FedEx_CustRef" =
      some (.vs "3119952000".toList) :=
  lightning_missing_total_empty_amount [] c9text "l.pdf".toList
    "3119952000".toList 0
    (searchIn DATE_RX (sl c9text 0 c9text.length)).get!
    (searchIn ORDER_ID_FROM_LABEL (sl c9text 0 c9text.length)).get!
    (by decide) (by decide) (by decide) (by decide) (by decide)

/-! ## The page-break merge and the silent drop (C2, C3) -/

/-- **C2.**  Two consecutive blocks with the same tracking id, of which
only the first has a customer reference and a sender and only the
second has a total: `FedExParser.parse` emits exactly one row combining
the first block's sender, reference and tracking with the second
block's total, and the pending register is clear afterwards. -/
theorem fedex_pagebreak_merge_single_row
    (cmap : List (List Char × List Char)) (text fname b1 b2 c sd tk : List Char)
    (q : ℚ) (cont2 : Bool)
    (hb : iter_ship_blocks text = [b1, b2])
    (h1 : fedFields b1 = ⟨some c, some sd, none, some tk, false⟩)
    (h2 : fedFields b2 = ⟨none, none, some q, some tk, cont2⟩)
    (hoc : parse_other_charges text = none)
    (hc : c ≠ []) (hs : sd ≠ []) (ht : tk ≠ []) :
    fedParse cmap text fname =
      [emit_row (fedCtxOf cmap text fname) (some sd) (some c) (some tk) (some q)] ∧
    (fedFold (fedCtxOf cmap text fname)
      ((iter_ship_blocks text).map fedFields)).pending = none ∧
    rowGet (emit_row (fedCtxOf cmap text fname) (some sd) (some c) (some tk)
      (some q)) "FedEx_Sender" = some (.vs sd) ∧
    rowGet (emit_row (fedCtxOf cmap text fname) (some sd) (some c) (some tk)
      (some q)) "FedEx_CustRef" = some (.vs (soft_clean c)) ∧
    rowGet (emit_row (fedCtxOf cmap text fname) (some sd) (some c) (some tk)
      (some q)) "Amount" = some (.vq q) := by
  have hce := isEmpty_false_of_ne hc
  have hse := isEmpty_false_of_ne hs
  have hte := isEmpty_false_of_ne ht
  have hfold : fedFold (fedCtxOf cmap text fname)
      ((iter_ship_blocks text).map fedFields) =
      ⟨[emit_row (fedCtxOf cmap text fname) (some sd) (some c) (some tk)
        (some q)], none⟩ := by
    rw [hb]
    simp only [List.map_cons, List.map_nil, h1, h2, fedFold, List.foldl_cons,
      List.foldl_nil]
    simp [fedStep, fedFresh, truthyS, pyOrO, hce, hse, hte]
  refine ⟨?_, by rw [hfold], rfl, rfl, rfl⟩
  unfold fedParse
  dsimp only
  rw [hoc, hfold]

/-- **C3.**  A pending block (signals, here a tracking id, but no total)
followed by a block with a *different* tracking id and no total yields
no row at all: the pending shipment is dropped silently, and the second
block is evaluated fresh, starting a new pending with its own fields. -/
theorem fedex_incomplete_pending_dropped_silently
    (cmap : List (List Char × List Char)) (text fname b1 b2 t1 t2 : List Char)
    (c1s s1s c2s s2s : Option (List Char)) (cont1 cont2 : Bool)
    (hb : iter_ship_blocks text = [b1, b2])
    (h1 : fedFields b1 = ⟨c1s, s1s, none, some t1, cont1⟩)
    (h2 : fedFields b2 = ⟨c2s, s2s, none, some t2, cont2⟩)
    (hoc : parse_other_charges text = none)
    (ht1 : t1 ≠ []) (ht2 : t2 ≠ []) (hne : t1 ≠ t2) :
    fedParse cmap text fname = [] ∧
    (fedFold (fedCtxOf cmap text fname)
      ((iter_ship_blocks text).map fedFields)).pending =
      some ⟨some t2, c2s, s2s⟩ := by
  have ht1e := isEmpty_false_of_ne ht1
  have ht2e := isEmpty_false_of_ne ht2
  have hbe : ((some t2 : Option (List Char)) == some t1) = false := by
    rw [beq_eq_false_iff_ne]
    intro h
    exact hne (Option.some_injective _ h).symm
  have hfold : fedFold (fedCtxOf cmap text fname)
      ((iter_ship_blocks text).map fedFields) =
      ⟨[], some ⟨some t2, c2s, s2s⟩⟩ := by
    rw [hb]
    simp only [List.map_cons, List.map_nil, h1, h2, fedFold, List.foldl_cons,
      List.foldl_nil]
    simp [fedStep, fedFresh, truthyS, pyOrO, ht1e, ht2e, hbe]
  refine ⟨?_, by rw [hfold]⟩
  unfold fedParse
  dsimp only
  rw [hoc, hfold]

/-- A concrete two-block FedEx text for the merge scenario: the first
block holds reference, sender and tracking id, the second the same
tracking id and the total. -/
def c2text : List Char :=
  ("Ship Date: Jan 1\nCust. Ref.: 12345\nSender ACME CO\n" ++
   "Tracking ID: 123456789\nShip Date: Jan 2\nTracking ID: 123456789\n" ++
   "Total Charge USD $45.00\n").toList

def c2b1 : List Char :=
  ("Ship Date: Jan 1\nCust. Ref.: 12345\nSender ACME CO\n" ++
   "Tracking ID: 123456789\n").toList

def c2b2 : List Char :=
  ("Ship Date: Jan 2\nTracking ID: 123456789\nTotal Charge USD $45.00\n").toList

set_option maxRecDepth 8000 in
set_option maxHeartbeats 2000000 in
theorem fedex_pagebreak_merge_witness :
    fedParse [] c2text "w.pdf".toList =
      [emit_row (fedCtxOf [] c2text "w.pdf".toList) (some "ACME CO".toList)
        (some "12345".toList) (some "123456789".toList) (some 45)] ∧
    (fedFold (fedCtxOf [] c2text "w.pdf".toList)
      ((iter_ship_blocks c2text).map fedFields)).pending = none ∧
    rowGet (emit_row (fedCtxOf [] c2text "w.pdf".toList) (some "ACME CO".toList)
      (some "12345".toList) (some "123456789".toList) (some 45)) "FedEx_Sender" =
      some (.vs "ACME CO".toList) ∧
    rowGet (emit_row (fedCtxOf [] c2text "w.pdf".toList) (some "ACME CO".toList)
      (some "12345".toList) (some "123456789".toList) (some 45)) "FedEx_CustRef" =
      some (.vs (soft_clean "12345".toList)) ∧
    rowGet (emit_row (fedCtxOf [] c2text "w.pdf".toList) (some "ACME CO".toList)
      (some "12345".toList) (some "123456789".toList) (some 45)) "Amount" =
      some (.vq 45) :=
  fedex_pagebreak_merge_single_row [] c2text "w.pdf".toList c2b1 c2b2
    "12345".toList "ACME CO".toList "123456789".toList 45 false
    (by decide) (by decide) (by decide) (by decide)
    (by decide) (by decide) (by decide)

/-- A concrete two-block FedEx text for the drop scenario: the first
block holds only a tracking id (no total), the second a different
tracking id and no total. -/
def c3text : List Char :=
  ("Ship Date: Jan 1\nCust. Ref.: 12345\nSender ACME CO\n" ++
   "Tracking ID: 123456789\nShip Date: Jan 2\nTracking ID: 987654321\n").toList

def c3b1 : List Char := c2b1

def c3b2 : List Char :=
  ("Ship Date: Jan 2\nTracking ID: 987654321\n").toList

set_option maxRecDepth 8000 in
set_option maxHeartbeats 2000000 in
theorem fedex_incomplete_pending_dropped_witness :
    fedParse [] c3text "w.pdf".toList = [] ∧
    (fedFold (fedCtxOf [] c3text "w.pdf".toList)
      ((iter_ship_blocks c3text).map fedFields)).pending =
      some ⟨some "987654321".toList, none, none⟩ :=
  fedex_incomplete_pending_dropped_silently [] c3text "w.pdf".toList c3b1 c3b2
    "123456789".toList "987654321".toList (some "12345".toList)
    (some "ACME CO".toList) none none false false
    (by decide) (by decide) (by decide) (by decide)
    (by decide) (by decide) (by decide)

theorem iter_ship_blocks_covers_witness :
    (iter_ship_blocks ("Ship Date: A TRAILER".toList)).length =
      ([0] : List Nat).length ∧
    (iter_ship_blocks ("Ship Date: A TRAILER".toList)).flatten =
      ("Ship Date: A TRAILER".toList).drop 0 :=
  iter_ship_blocks_covers_to_end ("Ship Date: A TRAILER".toList) 0 []
    (by decide)


